import Mathlib

/-!
Verification development for the blackjack shoe-accounting GUI repository.

The repository contains two parallel implementations of the same
application:

* `simulation_gui.py` — the runnable monolithic implementation (it has the
  `main` entry point); its engine code matches the specification clause by
  clause;
* the `gui/` package (`gui/app.py`, `gui/state.py`, `gui/hand_utils.py`,
  ...) — a partial refactoring with no entry point (its `burn_cards` is a
  stub) whose engine behaviour diverges from the specification in several
  places.

Both engines are shallowly embedded below.  Definitions in the `Sim`
namespace are translated from `simulation_gui.py`; definitions in the `App`
namespace are translated from `gui/app.py` (with `gui/state.py` supplying
the state shape).  The text-parsing helpers shared by both live at the top
level and are translated from `gui/hand_utils.py` (whose code is
essentially identical to the corresponding methods of
`simulation_gui.py`); where the two copies differ (the "your hand" lookup
index) both variants are embedded.

Modelling conventions:

* Python floats are modelled as exact rationals (`ℚ`).  All concrete
  inputs used in witnesses and counterexamples are chosen so that the
  Python float computation is exact (halves, small integers), so the
  rational model agrees with the float run on those inputs.
* Python's regex character class `\s` is modelled by ASCII whitespace,
  and `\w`/`\d` by ASCII word/digit characters; all texts involved in the
  claims are ASCII.
* `collections.Counter` / per-rank dictionaries are modelled as total
  functions `Nat → Nat` (absent keys read as 0, as for `Counter`).
* Tk `StringVar`/status labels and all drawing code are display-only and
  are not part of the state; clipboard writes have no engine effect.
* The external bet-ramp oracle `CardCountBetter.get_bet` (root-level
  `betting_strategies.py`, outside `src/`) is kept abstract: every
  operation that recomputes betting info takes an `oracle : List Nat → Nat`
  parameter standing for `fun cards => CardCountBetter.get_bet(cards,
  deck_number)` (the spec requires its result to be a non-negative int;
  a `ZeroDivisionError` is treated as 0, which the abstract function
  already covers).
-/

/-! ### Card basics (constants.py / simulation_gui.py top level) -/

/-- CARD_VALUES = tuple(range(2, 12)). -/
def cardValues : List Nat := [2, 3, 4, 5, 6, 7, 8, 9, 10, 11]

/-- Modelled from the spec: the root-level `utils.get_hilo_running_count`
that both GUIs import is not under `src/`; spec §4.3 fixes its value
exactly: Hi-Lo weight +1 for ranks 2–6, 0 for ranks 7–9, −1 for rank 10
and Ace (11); the running count is the sum of the weights. -/
def hiloWeight (v : Nat) : Int :=
  if 2 ≤ v ∧ v ≤ 6 then 1
  else if 7 ≤ v ∧ v ≤ 9 then 0
  else if v = 10 ∨ v = 11 then -1
  else 0

/-- Modelled from the spec: running count = sum of Hi-Lo weights over the
accounted cards (spec §4.3). -/
def hiloRunningCount (cards : List Nat) : Int :=
  (cards.map hiloWeight).sum

/-! ### Character helpers for the text-import parser

These model the ASCII fragment of Python's `str.lower`, `str.upper`,
`str.strip`, and the regex classes `\s`, `\d`, `\w` used by
`CARD_CODE_PATTERN`, `\bhand\s*\d+`, and `hand\s*(\d+)`. -/

/-- ASCII whitespace, modelling the regex class `\s` and `str.strip`. -/
def isSpaceCh (c : Char) : Bool :=
  c = ' ' || c = '\t' || c = '\n' || c = '\r' || c = Char.ofNat 11 || c = Char.ofNat 12

/-- ASCII decimal digit, modelling the regex class `\d` / `str.isdigit`. -/
def isDigitCh (c : Char) : Bool :=
  '0' ≤ c && c ≤ '9'

/-- ASCII word character, modelling the regex class `\w` (for `\b`). -/
def isWordCh (c : Char) : Bool :=
  isDigitCh c || ('a' ≤ c && c ≤ 'z') || ('A' ≤ c && c ≤ 'Z') || c = '_'

/-- ASCII upper-casing of a character (Python `str.upper` on ASCII). -/
def upCh (c : Char) : Char :=
  if 'a' ≤ c && c ≤ 'z' then Char.ofNat (c.toNat - 32) else c

/-- ASCII lower-casing of a character (Python `str.lower` on ASCII). -/
def lowCh (c : Char) : Char :=
  if 'A' ≤ c && c ≤ 'Z' then Char.ofNat (c.toNat + 32) else c

/-- Python `text.lower()` on a character list. -/
def lowerL (l : List Char) : List Char := l.map lowCh

/-- Python `str.strip()` (whitespace from both ends). -/
def pyStrip (l : List Char) : List Char :=
  ((l.dropWhile isSpaceCh).reverse.dropWhile isSpaceCh).reverse

/-- Number denoted by a digit string (`int(rank)` for an all-digit rank). -/
def digitsToNat (l : List Char) : Nat :=
  l.foldl (fun n c => n * 10 + (c.toNat - '0'.toNat)) 0

/-- Length of the longest prefix whose characters satisfy `p`. -/
def countLeading (p : Char → Bool) : List Char → Nat
  | [] => 0
  | c :: r => if p c then countLeading p r + 1 else 0

/-- Whether `pat` is a prefix of `l` (character-exact). -/
def leadsWith : List Char → List Char → Bool
  | [], _ => true
  | _ :: _, [] => false
  | p :: ps, c :: cs => p = c && leadsWith ps cs

/-- Whether `pat` is a prefix of `l` up to ASCII case (regex IGNORECASE). -/
def ciLeadsWith (pat l : List Char) : Bool :=
  leadsWith (lowerL pat) (lowerL l)

/-- Python `haystack.find(needle)`: index of the first occurrence, `none`
for Python's -1. -/
def findSub : List Char → List Char → Option Nat
  | l, pat =>
    if leadsWith pat l then some 0
    else match l with
      | [] => none
      | _ :: r =>
        match findSub r pat with
        | some i => some (i + 1)
        | none => none

/-! ### The card-token scanner

`CARD_CODE_PATTERN = re.compile(r":\s*((?:10|[2-9]|[TJQKA])[HDCS]?)\s*:", re.IGNORECASE)`
(`gui/constants.py` line 16 and `simulation_gui.py` line 38).  `findall`
returns the group-1 text of each non-overlapping match, scanning left to
right and resuming after each match's closing colon. -/

/-- Whether a character matches `[TJQKA]` with IGNORECASE. -/
def isRankLetter (c : Char) : Bool :=
  let u := upCh c
  u = 'T' || u = 'J' || u = 'Q' || u = 'K' || u = 'A'

/-- Whether a character matches `[HDCS]` with IGNORECASE. -/
def isSuitCh (c : Char) : Bool :=
  let u := upCh c
  u = 'H' || u = 'D' || u = 'C' || u = 'S'

/-- Match `(?:10|[2-9]|[TJQKA])` at the head of `l`: the matched
characters (original case) and their count.  The alternation tries `10`
first, exactly like the regex. -/
def rankPart : List Char → Option (List Char × Nat)
  | '1' :: '0' :: _ => some (['1', '0'], 2)
  | c :: _ =>
    if ('2' ≤ c && c ≤ '9') then some ([c], 1)
    else if isRankLetter c then some ([c], 1)
    else none
  | [] => none

/-- Match `\s*:` at the head of `l`, returning the consumed length. -/
def closeLen (l : List Char) : Option Nat :=
  let k := countLeading isSpaceCh l
  match l.drop k with
  | ':' :: _ => some (k + 1)
  | _ => none

/-- Match `[HDCS]?\s*:` at the head of `l`: the optional suit character
and the consumed length.  The optional suit is greedy, backtracking to
the empty alternative if the `\s*:` tail then fails — exactly the regex
engine's behaviour. -/
def suitClose (l : List Char) : Option (List Char × Nat) :=
  match l with
  | c :: r =>
    if isSuitCh c then
      match closeLen r with
      | some n => some ([c], 1 + n)
      | none =>
        match closeLen l with
        | some n => some ([], n)
        | none => none
    else
      match closeLen l with
      | some n => some ([], n)
      | none => none
  | [] => none

/-- Attempt a match of `\s*((?:10|[2-9]|[TJQKA])[HDCS]?)\s*:` at the head
of `rest` (the text following an opening colon): returns the group-1
characters and the number of characters of `rest` consumed (through the
closing colon). -/
def tokenAfterColon (rest : List Char) : Option (List Char × Nat) :=
  let k := countLeading isSpaceCh rest
  match rankPart (rest.drop k) with
  | none => none
  | some (rk, rl) =>
    match suitClose (rest.drop (k + rl)) with
    | none => none
    | some (st, n) => some (rk ++ st, k + rl + n)

/-- Fueled scanner for `CARD_CODE_PATTERN.findall`: at each position, if
the character is a colon, try to complete a match; on success emit the
group and resume after the closing colon (non-overlapping), otherwise
advance one character.  Fuel `l.length` suffices since every step consumes
at least one character. -/
def scanToks : Nat → List Char → List (List Char)
  | 0, _ => []
  | _, [] => []
  | fuel + 1, c :: rest =>
    if c = ':' then
      match tokenAfterColon rest with
      | some (tok, n) => tok :: scanToks fuel (rest.drop n)
      | none => scanToks fuel rest
    else scanToks fuel rest

/-- All group-1 texts of `CARD_CODE_PATTERN.findall(block)`. -/
def findTokens (l : List Char) : List (List Char) :=
  scanToks l.length l

/-! ### Card-code evaluation

`HandUtils.parse_card_code` (`gui/hand_utils.py` lines 17–36); the method
`_card_value_from_code` of `simulation_gui.py` (lines 613–629) is the same
code. -/

/-- Translation of `HandUtils.parse_card_code`.  Strip and upper-case,
remove blanks, drop a trailing suit letter when longer than one character,
map digit strings directly and A/K/Q/J/T through the rank map, and demand
the result be a legal card value. -/
def parseCardCode (code : List Char) : Option Nat :=
  let normalized := (pyStrip code).map upCh
  if normalized = [] then none
  else
    let cleaned := normalized.filter (fun c => c ≠ ' ')
    let rank :=
      if cleaned.length > 1 ∧ isSuitCh (cleaned.getLastD ' ') then cleaned.dropLast
      else cleaned
    let val : Nat :=
      if rank ≠ [] ∧ rank.all isDigitCh then digitsToNat rank
      else if rank = ['A'] then 11
      else if rank = ['K'] then 10
      else if rank = ['Q'] then 10
      else if rank = ['J'] then 10
      else if rank = ['T'] then 10
      else 0
    if val ∈ cardValues then some val else none

/-- Translation of `HandUtils._extract_cards` /
`simulation_gui._extract_cards_from_block`: evaluate every token found by
the pattern, discarding invalid ones.  (The `hand_utils` copy uses a
truthiness test `if val := ...` but `parse_card_code` never returns 0, and
the `simulation_gui` copy tests `is not None`; both are `filterMap`.) -/
def extractCards (block : List Char) : List Nat :=
  (findTokens block).filterMap parseCardCode

/-! ### Hand-label searches -/

/-- Match `hand\s*\d+` (IGNORECASE) at the head of `l`: total matched
length (digits greedy). -/
def handNumHere (l : List Char) : Option Nat :=
  if ciLeadsWith ['h', 'a', 'n', 'd'] l then
    let r := l.drop 4
    let k := countLeading isSpaceCh r
    let d := countLeading isDigitCh (r.drop k)
    if 0 < d then some (4 + k + d) else none
  else none

/-- Fueled `re.finditer(r"\bhand\s*\d+", text, IGNORECASE)`: the list of
(start, end) spans of the non-overlapping matches.  `prev` is the
character preceding the current position (for the word boundary `\b`). -/
def handMarksAux : Nat → Option Char → Nat → List Char → List (Nat × Nat)
  | 0, _, _, _ => []
  | _, _, _, [] => []
  | fuel + 1, prev, pos, c :: rest =>
    let boundary : Bool :=
      match prev with
      | none => true
      | some p => !isWordCh p
    match if boundary then handNumHere (c :: rest) else none with
    | some n =>
      (pos, pos + n) ::
        handMarksAux fuel ((c :: rest).drop (n - 1)).head? (pos + n) ((c :: rest).drop n)
    | none => handMarksAux fuel (some c) (pos + 1) rest

/-- All spans of `\bhand\s*\d+` (IGNORECASE) in `l`. -/
def handMarks (l : List Char) : List (Nat × Nat) :=
  handMarksAux l.length none 0 l

/-- Translation of `re.search(r"hand\s*(\d+)", txt, IGNORECASE)` in
`gui/app.py import_clipboard`: the digits group of the first match (no
word boundary in this pattern). -/
def searchHandNum : List Char → Option Nat
  | [] => none
  | c :: rest =>
    match handNumHere (c :: rest) with
    | some _ =>
      let r := (c :: rest).drop 4
      let k := countLeading isSpaceCh r
      let d := countLeading isDigitCh (r.drop k)
      some (digitsToNat ((r.drop k).take d))
    | none => searchHandNum rest

/-- Python slice `text[a:b]`. -/
def pySlice (l : List Char) (a b : Nat) : List Char :=
  (l.take b).drop a

/-- Blocks delimited by the hand-number matches: each block runs from a
match's end to the next match's start (or to the end of the text). -/
def marksBlocks (l : List Char) : List (Nat × Nat) → List (List Char)
  | [] => []
  | (_, e) :: rest =>
    match rest with
    | [] => [pySlice l e l.length]
    | (s2, _) :: _ => pySlice l e s2 :: marksBlocks l rest

/-- The lowered "dealer hand" marker searched by `lower.find("dealer hand")`. -/
def dealerPat : List Char := lowerL "Dealer Hand".toList

/-- The lowered "your hand" marker. -/
def yourHandPat : List Char := lowerL "your hand".toList

/-- Errors raised by the clipboard parser (`ValueError` messages). -/
inductive ParseFail where
  /-- "Clipboard text must include 'Dealer Hand'." -/
  | noDealerMarker : ParseFail
  /-- "Clipboard player hand has no cards." -/
  | noPlayerCards : ParseFail
deriving DecidableEq, Repr

/-- Translation of `HandUtils.parse_clipboard_hands`
(`gui/hand_utils.py` lines 39–70).  Note the quirk of this copy: the
"your hand" lookup index comes from `lower`, the lower-casing of the
WHOLE text (line 40), but is used to slice `player_part`. -/
def parseClipboardHands (text : List Char) :
    Except ParseFail (List (List Nat) × List Nat) :=
  let lower := lowerL text
  match findSub lower dealerPat with
  | none => .error .noDealerMarker
  | some dealerIdx =>
    let playerPart := text.take dealerIdx
    let dealerPart := text.drop dealerIdx
    let ms := handMarks playerPart
    let blocks :=
      if ms ≠ [] then marksBlocks playerPart ms
      else
        match findSub lower yourHandPat with
        | some yi => [playerPart.drop yi]
        | none => [playerPart]
    let hands := (blocks.map extractCards).filter (fun h => h ≠ [])
    if hands = [] then .error .noPlayerCards
    else .ok (hands, extractCards dealerPart)

/-- Translation of `simulation_gui._parse_clipboard_hands` together with
`_extract_player_blocks` (lines 573–600).  Identical to the `hand_utils`
copy except that the "your hand" lookup is performed on the lower-casing
of the player block itself (line 596), not of the whole text. -/
def simParseClipboardHands (text : List Char) :
    Except ParseFail (List (List Nat) × List Nat) :=
  let lower := lowerL text
  match findSub lower dealerPat with
  | none => .error .noDealerMarker
  | some dealerIdx =>
    let playerPart := text.take dealerIdx
    let dealerPart := text.drop dealerIdx
    let ms := handMarks playerPart
    let blocks :=
      if ms ≠ [] then marksBlocks playerPart ms
      else
        match findSub (lowerL playerPart) yourHandPat with
        | some yi => [playerPart.drop yi]
        | none => [playerPart]
    let hands := (blocks.map extractCards).filter (fun h => h ≠ [])
    if hands = [] then .error .noPlayerCards
    else .ok (hands, extractCards dealerPart)

/-! ### Session statistics (simulation_gui `_default_stats` and friends;
gui/state.py `SessionStats`) -/

/-- One history entry `{game, profit, win_rate}`. -/
structure HistEntry where
  game : Nat
  profit : ℚ
  winRate : ℚ
deriving DecidableEq, Repr

/-- Session counters and history. -/
structure SessionStats where
  wins : Nat
  losses : Nat
  pushes : Nat
  netProfit : ℚ
  history : List HistEntry
deriving DecidableEq, Repr

/-- The defaults of `_default_stats` / the `SessionStats` dataclass. -/
def statsDefault : SessionStats :=
  { wins := 0, losses := 0, pushes := 0, netProfit := 0, history := [] }

/-- `_total_games_played` / `SessionStats.total_games`: wins + losses. -/
def totalGames (st : SessionStats) : Nat := st.wins + st.losses

/-- `_win_rate` / `SessionStats.win_rate`. -/
def winRate (st : SessionStats) : ℚ :=
  if totalGames st = 0 then 0 else (st.wins : ℚ) / (totalGames st : ℚ)

/-- STATS_HISTORY_LIMIT = 500. -/
def statsHistoryLimit : Nat := 500

/-- Translation of `simulation_gui._append_history_entry` (lines
1369–1382): no entry while no win/loss was ever logged; cap the history at
the most recent 500 entries. -/
def appendHistoryEntry (st : SessionStats) : SessionStats :=
  if totalGames st = 0 then { st with history := [] }
  else
    let entry : HistEntry :=
      { game := totalGames st, profit := st.netProfit, winRate := winRate st }
    let h := st.history ++ [entry]
    { st with history := if statsHistoryLimit < h.length then h.drop (h.length - statsHistoryLimit) else h }

/-- A round outcome; the Python code passes the strings "win", "loss",
"push" (always lower case at the call sites). -/
inductive Outcome where
  | win : Outcome
  | loss : Outcome
  | push : Outcome
deriving DecidableEq, Repr

/-- A card target: the active player hand or the dealer hand (the Python
string `target` is always "player" or "dealer"). -/
inductive Targ where
  | player : Targ
  | dealer : Targ
deriving DecidableEq, Repr

/-- Point update of a seen-count table. -/
def updSeen (f : Nat → Nat) (v n : Nat) : Nat → Nat :=
  fun w => if w = v then n else f w

/-- Folding `self.cards_seen_counts[card] += 1` over a card list
(`_log_current_hands_as_seen`, `record_result`). -/
def bumpSeenMany (f : Nat → Nat) (cards : List Nat) : Nat → Nat :=
  cards.foldl (fun g c => updSeen g c (g c + 1)) f

/-- A seen-count table from an association list (all other ranks 0);
used to build concrete states. -/
def seenOf (l : List (Nat × Nat)) : Nat → Nat :=
  fun v => ((l.find? (fun p => p.1 = v)).map Prod.snd).getD 0

/-- Python `int()` on a rational: truncation toward zero. -/
def pyInt (q : ℚ) : Int :=
  if 0 ≤ q then ⌊q⌋ else -⌊-q⌋

/-- NEGATIVE_COUNT_THRESHOLD = -0.5. -/
def negativeCountThreshold : ℚ := -(1 / 2)

/-! ### The simulation_gui engine state

Fields of `BlackjackSimulatorGUI` that carry engine state (tk variables
are engine state holders; display-only variables are omitted).  The burn
feature's spin-box count is a UI input, not state; `unseen_burned_count`
is state. -/

/-- Engine state of `simulation_gui.BlackjackSimulatorGUI`. -/
structure SimState where
  deckNumber : Nat
  bankrollVar : ℚ
  unitPercentVar : ℚ
  minBetVar : ℚ
  seen : Nat → Nat
  playerHands : List (List Nat)
  dealerCards : List Nat
  activeHandIndex : Nat
  unseenBurned : Nat
  lastBet : ℚ
  roundBet : Option ℚ
  roundDoubled : Bool
  stats : SessionStats

namespace Sim

/-- `_total_card_capacity`: 16 per deck for tens, 4 per deck otherwise. -/
def cap (s : SimState) (v : Nat) : Nat :=
  s.deckNumber * (if v = 10 then 16 else 4)

/-- `_all_player_cards`: concatenation of all player hands. -/
def allPlayerCards (s : SimState) : List Nat :=
  s.playerHands.flatten

/-- Occurrences of rank `v` across all open hands (player hands plus the
dealer hand), as computed by `_max_manual_seen_count` and
`_add_card_to_hand`. -/
def occ (s : SimState) (v : Nat) : Nat :=
  (allPlayerCards s).count v + s.dealerCards.count v

/-- `_max_manual_seen_count`: `max(capacity - used_in_hands, 0)` (natural
subtraction already truncates at 0). -/
def maxManualSeen (s : SimState) (v : Nat) : Nat :=
  cap s v - occ s v

/-- `_active_player_hands` restricted to what the engine consumes: the
non-empty player hands. -/
def activeHands (s : SimState) : List (List Nat) :=
  s.playerHands.filter (fun h => h ≠ [])

/-- `_active_hand_count`. -/
def activeHandCount (s : SimState) : Nat :=
  (activeHands s).length

/-- `_round_in_progress`: some player hand is non-empty or the dealer
hand is non-empty. -/
def roundInProgress (s : SimState) : Bool :=
  s.playerHands.any (fun h => !h.isEmpty) || !s.dealerCards.isEmpty

/-- `_maybe_lock_round_bet`: capture the previously computed
recommendation unless a bet is already locked. -/
def maybeLockRoundBet (s : SimState) : SimState :=
  match s.roundBet with
  | some _ => s
  | none => { s with roundBet := some (max s.lastBet 0) }

/-- `_clear_round_bet_if_idle`. -/
def clearRoundBetIfIdle (s : SimState) : SimState :=
  if roundInProgress s then s else { s with roundBet := none }

/-- `_current_round_bet`. -/
def currentRoundBet (s : SimState) : ℚ :=
  match s.roundBet with
  | none => max s.lastBet 0
  | some b => max b 0

/-- `_apply_bankroll_delta`: add and clamp at 0 (no-op for a zero
delta). -/
def applyBankrollDelta (s : SimState) (delta : ℚ) : SimState :=
  if delta = 0 then s else { s with bankrollVar := max (s.bankrollVar + delta) 0 }

/-- The guard `if not self.player_hands: self.player_hands = [[]]` that
opens `_resolve_hand_index` and `_rebuild_player_tabs`. -/
def fixHands (s : SimState) : SimState :=
  if s.playerHands = [] then { s with playerHands := [[]] } else s

/-- `_resolve_hand_index`: a valid explicit index wins, otherwise the
active index clamped into range. -/
def resolveHandIndex (s : SimState) (hi : Option Nat) : SimState × Nat :=
  let s := fixHands s
  match hi with
  | some i =>
    if i < s.playerHands.length then (s, i)
    else (s, min s.activeHandIndex (s.playerHands.length - 1))
  | none => (s, min s.activeHandIndex (s.playerHands.length - 1))

/-- `_rebuild_player_tabs` (engine effect only): re-clamp the active hand
index into range. -/
def rebuildTabs (s : SimState) : SimState :=
  let s := fixHands s
  { s with activeHandIndex := min s.activeHandIndex (s.playerHands.length - 1) }

/-- `_get_total_seen_cards(include_hands=True)`: the seen-count table
flattened in rank order (dict insertion order is 2..11), then every
player hand, then the dealer hand. -/
def cardsSeenList (s : SimState) : List Nat :=
  (cardValues.flatMap (fun v => List.replicate (s.seen v) v)) ++
    allPlayerCards s ++ s.dealerCards

/-- `_calculate_actual_bet`. -/
def calculateActualBet (s : SimState) (units : Nat) : ℚ :=
  let bankroll := max s.bankrollVar 0
  let unitPercent := max s.unitPercentVar 0
  let baseBet := bankroll * (unitPercent / 100)
  if bankroll ≤ 0 ∨ baseBet ≤ 0 ∨ units = 0 then 0
  else min ((units : ℚ) * baseBet) bankroll

/-- The betting figures computed by one `_update_betting_info` pass. -/
structure BetInfo where
  units : Nat
  actual : ℚ
  forcedMin : Bool
  reducedNote : Bool
  lockedRound : Bool
  trueCount : ℚ
deriving DecidableEq, Repr

/-- The local `cards_left` of `_update_betting_info`: cards in the shoe
minus every accounted card (an int; the code never clamps it here). -/
def cardsLeft (s : SimState) : Int :=
  (max s.deckNumber 1 : Nat) * 52 - (cardsSeenList s).length

/-- The local `physical_left` of `_update_betting_info`. -/
def physicalLeft (s : SimState) : Int :=
  max (cardsLeft s - (s.unseenBurned : Int)) 0

/-- The local `true_count` of `_update_betting_info`. -/
def trueCount (s : SimState) : ℚ :=
  if cardsLeft s ≤ 0 then 0
  else (hiloRunningCount (cardsSeenList s) : ℚ) / ((cardsLeft s : ℚ) / 52)

/-- The local `estimated_needed` of `_update_betting_info`:
`(max(active_hands,1)+1)*4`. -/
def estimatedNeeded (s : SimState) : Int :=
  ((max (activeHandCount s) 1 : Nat) + 1) * 4

/-- Translation of the computation part of `_update_betting_info`
(simulation_gui lines 1092–1144): true count, oracle units, shallow-shoe
dampening, currency conversion, minimum-bet floor, negative-count
flattening, and the locked-round display switch. -/
def betInfo (oracle : List Nat → Nat) (s : SimState) : BetInfo :=
  let betUnits0 := oracle (cardsSeenList s)
  let damp :=
    if 1 < betUnits0 ∧ 0 < physicalLeft s then
      if physicalLeft s < estimatedNeeded s then
        let factor : ℚ := (physicalLeft s : ℚ) / (estimatedNeeded s : ℚ)
        let adjustedUnits : ℚ := 1 + ((betUnits0 : ℚ) - 1) * factor
        let reducedUnits := max 1 (pyInt adjustedUnits).toNat
        if reducedUnits < betUnits0 then (reducedUnits, true) else (betUnits0, false)
      else (betUnits0, false)
    else (betUnits0, false)
  let betUnits := damp.1
  let actual0 := calculateActualBet s betUnits
  let minBetVal := max s.minBetVar 0
  let bankroll := max s.bankrollVar 0
  let actual1 := if 0 < actual0 ∧ actual0 < minBetVal then min minBetVal bankroll else actual0
  let flat := trueCount s < negativeCountThreshold
  let actual2 := if flat then (if 0 < bankroll then min minBetVal bankroll else 0) else actual1
  { units := betUnits
    actual := actual2
    forcedMin := flat ∧ 0 < actual2
    reducedNote := damp.2
    lockedRound := roundInProgress s ∧ s.roundBet ≠ none
    trueCount := trueCount s }

/-- State effect of `_update_betting_info`: the recommendation cache
`_last_bet_amount` is refreshed unless a round bet is locked. -/
def updateBetting (oracle : List Nat → Nat) (s : SimState) : SimState :=
  let info := betInfo oracle s
  if info.lockedRound then s else { s with lastBet := info.actual }

end Sim

/-- Removal of the last occurrence of `v`, as performed by the loop
`for pos in reversed(range(len(cards))): if cards[pos] == value:
cards.pop(pos); break` — equivalently, erase the first occurrence of the
reversed list.  `none` when `v` does not occur. -/
def removeLastOcc (l : List Nat) (v : Nat) : Option (List Nat) :=
  if v ∈ l then some (l.reverse.erase v).reverse else none

/-- Removal by explicit positions, as performed by
`for index in reversed(selection): if 0 <= index < len(cards):
cards.pop(index)` (the bounds check is against the current, shrinking
list). -/
def removeAtIdxs (l : List Nat) (selection : List Nat) : List Nat :=
  selection.reverse.foldl (fun acc i => if i < acc.length then acc.eraseIdx i else acc) l

namespace Sim

/-- Translation of `_modify_seen_card` (lines 646–659): clamp the new
value into `[0, max_manual]`; when a positive delta is entirely absorbed
at the cap, report "no cards left" and return without writing. -/
def modifySeenCard (oracle : List Nat → Nat) (s : SimState) (v : Nat) (delta : Int) :
    SimState :=
  let maxManual := maxManualSeen s v
  let newValue0 : Int := (s.seen v : Int) + delta
  let newValue : Int :=
    if newValue0 < 0 then 0
    else if (maxManual : Int) < newValue0 then maxManual
    else newValue0
  if newValue = (s.seen v : Int) ∧ 0 < delta ∧ maxManual = s.seen v then s
  else updateBetting oracle { s with seen := updSeen s.seen v newValue.toNat }

/-- Translation of `_add_card_to_hand` (lines 731–754): reject (state
unchanged) when `seen[rank] + occurrences_in_open_hands(rank) >=
capacity`; otherwise lock the round bet if the table was empty, then
append the rank to the designated hand. -/
def addCardToHand (oracle : List Nat → Nat) (s : SimState) (target : Targ) (v : Nat)
    (hi : Option Nat) : SimState :=
  let roundWasEmpty := !roundInProgress s
  let capacity := cap s v
  let manualSeen := s.seen v
  let handCount := occ s v
  if capacity ≤ manualSeen + handCount then s
  else
    let s := if roundWasEmpty then maybeLockRoundBet s else s
    match target with
    | .player =>
      let p := resolveHandIndex s hi
      let s := p.1
      let idx := p.2
      let s := { s with playerHands := s.playerHands.set idx ((s.playerHands.getD idx []) ++ [v]) }
      updateBetting oracle s
    | .dealer =>
      updateBetting oracle { s with dealerCards := s.dealerCards ++ [v] }

/-- Translation of `_remove_card_by_value` (lines 756–778): remove the
last occurrence of the rank from the designated hand, then clear the
round bet if the table became idle; "nothing to remove" leaves the state
as is. -/
def removeCardByValue (oracle : List Nat → Nat) (s : SimState) (target : Targ) (v : Nat)
    (hi : Option Nat) : SimState :=
  match target with
  | .player =>
    let p := resolveHandIndex s hi
    let s := p.1
    let idx := p.2
    match removeLastOcc (s.playerHands.getD idx []) v with
    | none => s
    | some cards2 =>
      let s := { s with playerHands := s.playerHands.set idx cards2 }
      updateBetting oracle (clearRoundBetIfIdle s)
  | .dealer =>
    match removeLastOcc s.dealerCards v with
    | none => s
    | some cards2 =>
      let s := { s with dealerCards := cards2 }
      updateBetting oracle (clearRoundBetIfIdle s)

/-- Translation of `_remove_selected_card` (lines 780–808): pop the
selected positions (highest first), then clear the round bet if idle and
refresh the betting info. -/
def removeSelectedCard (oracle : List Nat → Nat) (s : SimState) (target : Targ)
    (hi : Option Nat) (selection : List Nat) : SimState :=
  match target with
  | .player =>
    let p := resolveHandIndex s hi
    let s := p.1
    let idx := p.2
    if selection = [] then s
    else
      let s := { s with playerHands := s.playerHands.set idx (removeAtIdxs (s.playerHands.getD idx []) selection) }
      updateBetting oracle (clearRoundBetIfIdle s)
  | .dealer =>
    if selection = [] then s
    else
      let s := { s with dealerCards := removeAtIdxs s.dealerCards selection }
      updateBetting oracle (clearRoundBetIfIdle s)

/-- Translation of `_clear_hand` (lines 810–828): clear the dealer hand,
one player hand, or reset the player area to a single empty hand; then
clear the round bet if idle and refresh the betting info. -/
def clearHand (oracle : List Nat → Nat) (s : SimState) (target : Targ)
    (hi : Option Nat) : SimState :=
  let s :=
    match target with
    | .player =>
      match hi with
      | none => rebuildTabs { s with playerHands := [[]], activeHandIndex := 0 }
      | some i =>
        let p := resolveHandIndex s (some i)
        { p.1 with playerHands := p.1.playerHands.set p.2 [] }
    | .dealer => { s with dealerCards := [] }
  updateBetting oracle (clearRoundBetIfIdle s)

/-- Translation of `_add_player_hand` (lines 360–376): when the resolved
hand holds exactly two cards of equal rank, pop the last card into a new
single-card hand APPENDED at the end of the hand list; otherwise append a
new empty hand.  The focus stays on the original hand. -/
def addPlayerHand (oracle : List Nat → Nat) (s : SimState) : SimState :=
  let p := resolveHandIndex s (some s.activeHandIndex)
  let s := p.1
  let splitIdx := p.2
  let splitHand := s.playerHands.getD splitIdx []
  if splitHand.length = 2 ∧ splitHand.getD 0 0 = splitHand.getD 1 0 then
    let splitCard := splitHand.getLastD 0
    let s := { s with playerHands := (s.playerHands.set splitIdx splitHand.dropLast) ++ [[splitCard]] }
    updateBetting oracle (rebuildTabs s)
  else
    let s := { s with playerHands := s.playerHands ++ [[]] }
    updateBetting oracle (rebuildTabs s)

/-- Translation of `_remove_current_player_hand` (lines 378–388):
refused while only one hand exists; otherwise pop the active hand and
re-clamp the active index. -/
def removeCurrentPlayerHand (oracle : List Nat → Nat) (s : SimState) : SimState :=
  if s.playerHands.length ≤ 1 then s
  else
    let removedIdx := s.activeHandIndex
    let s := { s with playerHands := s.playerHands.eraseIdx removedIdx }
    let s := { s with activeHandIndex := min removedIdx (s.playerHands.length - 1) }
    updateBetting oracle (rebuildTabs s)

/-- Translation of `_collect_hand_outcomes` (lines 926–962).  With no
active hand the outcome list is empty; with one active hand, or a neutral
default outcome, the single default is used without a dialog; otherwise
the per-hand outcomes come from the dialog, whose confirmed choices (or
cancellation) are the `dialogChoices` parameter. -/
def collectHandOutcomes (s : SimState) (defaultOutcome : Outcome)
    (dialogChoices : Option (List Outcome)) : Option (List Outcome) :=
  let active := activeHands s
  if active = [] then some []
  else if active.length = 1 ∨ (defaultOutcome ≠ .win ∧ defaultOutcome ≠ .loss) then
    some [defaultOutcome]
  else dialogChoices

/-- Translation of `_calculate_profit_delta` (lines 964–976). -/
def calculateProfitDelta (bet : ℚ) (handOutcomes : List Outcome) (doubled : Bool) : ℚ :=
  if handOutcomes = [] then 0
  else
    let totalUnits : Int :=
      (handOutcomes.map (fun o => match o with
        | .win => (1 : Int)
        | .loss => -1
        | .push => 0)).sum
    let totalUnits := if handOutcomes.length = 1 ∧ doubled then totalUnits * 2 else totalUnits
    bet * (totalUnits : ℚ)

/-- Translation of `_log_current_hands_as_seen` (lines 985–998): `none`
models the `False` return ("Nothing to record"); otherwise every card of
every player hand and of the dealer hand is added to the seen counts, the
hands are cleared, the round bet unlocks (the table is idle) and the
double flag resets. -/
def logCurrentHandsAsSeen (oracle : List Nat → Nat) (s : SimState) : Option SimState :=
  let allPlayer := allPlayerCards s
  if allPlayer = [] ∧ s.dealerCards = [] then none
  else
    let moved := allPlayer ++ s.dealerCards
    let s := { s with seen := bumpSeenMany s.seen moved }
    let s := clearHand oracle s .player none
    let s := clearHand oracle s .dealer none
    let s := clearRoundBetIfIdle s
    some { s with roundDoubled := false }

/-- Translation of `_record_game_result` (lines 880–924): nothing to
record on an empty table; the per-hand outcomes are collected (a
cancelled dialog aborts); the bet and profit delta are computed from the
pre-settlement state; all open cards move to seen; the counter matching
the pressed button advances by ONE; the bankroll moves on win/loss; the
net profit takes the delta; a history entry is appended only for win/loss;
the round bet unlocks and the double flag resets. -/
def recordGameResult (oracle : List Nat → Nat) (s : SimState) (outcome : Outcome)
    (dialogChoices : Option (List Outcome)) : SimState :=
  if allPlayerCards s = [] ∧ s.dealerCards = [] then s
  else
    match collectHandOutcomes s outcome dialogChoices with
    | none => s
    | some handOutcomes =>
      let betAmount := currentRoundBet s
      let profitDelta := calculateProfitDelta betAmount handOutcomes s.roundDoubled
      match logCurrentHandsAsSeen oracle s with
      | none => s
      | some s1 =>
        let countedOutcome := outcome = .win ∨ outcome = .loss
        let s2 :=
          match outcome with
          | .win => applyBankrollDelta { s1 with stats := { s1.stats with wins := s1.stats.wins + 1 } } profitDelta
          | .loss => applyBankrollDelta { s1 with stats := { s1.stats with losses := s1.stats.losses + 1 } } profitDelta
          | .push => { s1 with stats := { s1.stats with pushes := s1.stats.pushes + 1 } }
        let s3 := { s2 with stats := { s2.stats with netProfit := s2.stats.netProfit + profitDelta } }
        let s4 := if countedOutcome then { s3 with stats := appendHistoryEntry s3.stats } else s3
        let s5 := { s4 with roundBet := none }
        let s6 := updateBetting oracle s5
        { s6 with roundDoubled := false }

/-- First-occurrence key order of a `collections.Counter` built by
updating with the player hands and then the dealer hand. -/
def counterKeys (l : List Nat) : List Nat :=
  l.foldl (fun acc c => if c ∈ acc then acc else acc ++ [c]) []

/-- Translation of `_validate_import_capacity` (lines 631–641): the first
rank (in counter order) whose manual seen count plus imported amount
exceeds capacity, `none` when the import fits. -/
def validateImportCapacity (s : SimState) (playerHands : List (List Nat))
    (dealerCards : List Nat) : Option Nat :=
  let combined := playerHands.flatten ++ dealerCards
  (counterKeys combined).find? (fun v => cap s v < s.seen v + combined.count v)

/-- Result channel of the clipboard import (`_set_status` messages). -/
inductive ImportRes where
  /-- Import committed. -/
  | ok : ImportRes
  /-- "Clipboard is empty." -/
  | clipboardEmpty : ImportRes
  /-- A `ValueError` from the parser. -/
  | parseFailed (e : ParseFail) : ImportRes
  /-- "Not enough ... cards remaining for clipboard import." -/
  | capacityExceeded (v : Nat) : ImportRes
  /-- "Clipboard player hand has no cards." (post-parse `any` check) -/
  | noPlayerCards : ImportRes
  /-- "Clipboard dealer hand has no cards." -/
  | noDealerCards : ImportRes
deriving DecidableEq, Repr

/-- Translation of `_import_hands_from_clipboard` (lines 536–571): parse,
validate capacity, and only then commit the parsed hands (replacing the
open hands), reset the active index, and refresh the betting info.  Any
failure leaves the state untouched. -/
def importHands (oracle : List Nat → Nat) (s : SimState) (text : List Char) :
    SimState × ImportRes :=
  if pyStrip text = [] then (s, .clipboardEmpty)
  else
    match simParseClipboardHands text with
    | .error e => (s, .parseFailed e)
    | .ok pd =>
      let playerHands := pd.1
      let dealerCards := pd.2
      match validateImportCapacity s playerHands dealerCards with
      | some v => (s, .capacityExceeded v)
      | none =>
        if playerHands.all (fun h => h = []) then (s, .noPlayerCards)
        else if dealerCards = [] then (s, .noDealerCards)
        else
          let s := { s with playerHands := playerHands, activeHandIndex := 0,
                            dealerCards := dealerCards }
          (updateBetting oracle (rebuildTabs s), .ok)

end Sim

/-! ### The gui-package engine (gui/app.py with gui/state.py)

`GameState` splits the fields over `GameRules`, `BettingSettings`,
`SessionStats` and its own body; only the engine-relevant fields are kept
(rule booleans and `max_splits` feed the display-only simulator). -/

/-- Engine state of `gui.app.BlackjackSimulatorGUI` (the `GameState`
dataclass of gui/state.py). -/
structure AppState where
  deckNumber : Nat
  bankroll : ℚ
  unitPercent : ℚ
  minBet : ℚ
  stats : SessionStats
  seen : Nat → Nat
  playerHands : List (List Nat)
  dealerCards : List Nat
  activeHandIndex : Nat
  unseenBurned : Nat
  roundBet : Option ℚ
  lastBet : ℚ
  roundDoubled : Bool

namespace App

/-- The seen cards flattened (`calculate_betting_info` lines 292–299):
counter entries, then every player hand, then the dealer hand.  The
counter is traversed in canonical rank order (only the multiset reaches
the count and the oracle). -/
def seenFlat (s : AppState) : List Nat :=
  (cardValues.flatMap (fun v => List.replicate (s.seen v) v)) ++
    s.playerHands.flatten ++ s.dealerCards

/-- Translation of the computation in `calculate_betting_info`
(gui/app.py lines 291–329): units forced to 0 at true count ≤ −0.5,
halving below 20 physical cards, currency conversion and the minimum-bet
floor.  Returns (units, recommended amount). -/
def betCalc (oracle : List Nat → Nat) (s : AppState) : Nat × ℚ :=
  let flat := seenFlat s
  let deckN := max 1 s.deckNumber
  let runningCnt := hiloRunningCount flat
  let totalCards : Int := deckN * 52
  let cardsLeft : Int := totalCards - flat.length
  let physLeft : Int := max 0 (cardsLeft - (s.unseenBurned : Int))
  let trueCnt : ℚ := if 0 < cardsLeft then (runningCnt : ℚ) / ((cardsLeft : ℚ) / 52) else 0
  let betUnits0 := oracle flat
  let betUnits :=
    if trueCnt ≤ negativeCountThreshold then 0
    else if 1 < betUnits0 ∧ physLeft < 20 then max 1 (betUnits0 / 2)
    else betUnits0
  let bank := s.bankroll
  let unitVal := bank * (s.unitPercent / 100)
  let recBet0 := min bank ((betUnits : ℚ) * unitVal)
  let recBet := if 0 < recBet0 ∧ recBet0 < s.minBet then min bank s.minBet else recBet0
  (betUnits, recBet)

/-- State effect of `on_state_change` → `calculate_betting_info`: the
`last_bet_amount` cache is always overwritten (line 332; the gui package
has no locked-round guard on the cache). -/
def onStateChange (oracle : List Nat → Nat) (s : AppState) : AppState :=
  { s with lastBet := (betCalc oracle s).2 }

/-- Translation of `modify_hand_card` (gui/app.py lines 237–257): append
the rank (NO capacity check) or remove its last occurrence, then always
clear the locked bet ("Clear locked bet if hand changes"). -/
def modifyHandCard (oracle : List Nat → Nat) (s : AppState) (target : Targ) (v : Nat)
    (delta : Int) : AppState :=
  let s :=
    if 0 < delta then
      match target with
      | .player =>
        if s.activeHandIndex < s.playerHands.length then
          let newHand := (s.playerHands.getD s.activeHandIndex []) ++ [v]
          { s with playerHands := s.playerHands.set s.activeHandIndex newHand }
        else s
      | .dealer => { s with dealerCards := s.dealerCards ++ [v] }
    else
      match target with
      | .player =>
        match removeLastOcc (s.playerHands.getD s.activeHandIndex []) v with
        | some cards2 => { s with playerHands := s.playerHands.set s.activeHandIndex cards2 }
        | none => s
      | .dealer =>
        match removeLastOcc s.dealerCards v with
        | some cards2 => { s with dealerCards := cards2 }
        | none => s
  let s := { s with roundBet := none }
  onStateChange oracle s

/-- Translation of `add_player_hand` (gui/app.py lines 212–228): when the
active hand holds AT LEAST two cards (any ranks), pop its last card into
a new hand inserted right after the active index and clear the locked
bet; otherwise append an empty hand. -/
def addPlayerHand (s : AppState) : AppState :=
  if s.activeHandIndex < s.playerHands.length then
    let hand := s.playerHands.getD s.activeHandIndex []
    if 2 ≤ hand.length then
      let card := hand.getLastD 0
      let hands := (s.playerHands.set s.activeHandIndex hand.dropLast).insertIdx
        (s.activeHandIndex + 1) [card]
      { s with playerHands := hands, roundBet := none }
    else { s with playerHands := s.playerHands ++ [[]] }
  else { s with playerHands := s.playerHands ++ [[]] }

/-- Translation of `record_result` (gui/app.py lines 429–504): settle
ONLY the active hand; 1.5× payout on blackjack (double-down ignored);
update one counter by one; always append a history entry; move only the
active hand's cards to seen and pop the hand; the dealer hand moves to
seen only when the last player hand goes. -/
def recordResult (oracle : List Nat → Nat) (s : AppState) (outcome : Outcome)
    (doubled : Bool) (blackjack : Bool) : AppState :=
  if s.playerHands = [] then s
  else
    let s :=
      match s.roundBet with
      | none => { s with roundBet := some s.lastBet }
      | some _ => s
    let idx := min s.activeHandIndex (s.playerHands.length - 1)
    let hand := s.playerHands.getD idx []
    let bet0 := s.roundBet.getD 0
    let multiplier : ℚ :=
      if blackjack then 3 / 2
      else match outcome with
        | .win => 1
        | .loss => -1
        | .push => 0
    let effectiveDoubled := (s.roundDoubled || doubled) && !blackjack
    let bet := if effectiveDoubled then bet0 * 2 else bet0
    let profit := bet * multiplier
    let s := { s with bankroll := s.bankroll + profit }
    let st := s.stats
    let st :=
      if blackjack then { st with wins := st.wins + 1 }
      else match outcome with
        | .win => { st with wins := st.wins + 1 }
        | .loss => { st with losses := st.losses + 1 }
        | .push => { st with pushes := st.pushes + 1 }
    let st := { st with netProfit := st.netProfit + profit }
    let st := { st with history := st.history ++
      [{ game := totalGames st, profit := st.netProfit, winRate := winRate st }] }
    let s := { s with stats := st }
    let s := { s with seen := bumpSeenMany s.seen hand,
                      playerHands := s.playerHands.eraseIdx idx }
    let s :=
      if s.playerHands = [] then
        { s with seen := bumpSeenMany s.seen s.dealerCards, dealerCards := [],
                 playerHands := [[]], roundBet := none, roundDoubled := false,
                 activeHandIndex := 0 }
      else { s with activeHandIndex := min idx (s.playerHands.length - 1) }
    onStateChange oracle s

/-- Extend the hand list with empty hands until it has at least `n`
entries (the `while len(...) <= target_idx: append([])` loop). -/
def padHands (l : List (List Nat)) (n : Nat) : List (List Nat) :=
  l ++ List.replicate (n - l.length) []

/-- Translation of `import_clipboard` (gui/app.py lines 511–547): parse
the text (failures only set a status), pick a target hand from a
`hand N` label if present, and COMMIT the parsed hands with NO capacity
validation. -/
def importClipboard (oracle : List Nat → Nat) (s : AppState) (text : List Char) :
    AppState :=
  match parseClipboardHands text with
  | .error _ => s
  | .ok pd =>
    let pHands := pd.1
    let dCards := pd.2
    let targetIdx := (searchHandNum text).map (fun n => n - 1)
    let s :=
      if 1 < pHands.length then { s with playerHands := pHands, activeHandIndex := 0 }
      else
        match targetIdx with
        | some t =>
          let hands := padHands s.playerHands (t + 1)
          { s with playerHands := hands.set t (pHands.getD 0 []), activeHandIndex := t }
        | none =>
          if 1 < s.playerHands.length then
            if s.activeHandIndex < s.playerHands.length then
              { s with playerHands := s.playerHands.set s.activeHandIndex (pHands.getD 0 []) }
            else s
          else { s with playerHands := pHands }
    let s := { s with dealerCards := dCards }
    onStateChange oracle s

end App

/-! ### Initial states, the conservation invariant, reachability -/

/-- The all-zero seen table. -/
def seenZero : Nat → Nat := fun _ => 0

/-- The startup defaults of `simulation_gui.BlackjackSimulatorGUI.__init__`
(deck 3, bankroll 1000, unit percent 0.5, min bet 100, empty table). -/
def simInitial : SimState :=
  { deckNumber := 3, bankrollVar := 1000, unitPercentVar := 1 / 2, minBetVar := 100,
    seen := seenZero, playerHands := [[]], dealerCards := [], activeHandIndex := 0,
    unseenBurned := 0, lastBet := 0, roundBet := none, roundDoubled := false,
    stats := statsDefault }

/-- Spec invariant I1 / property P1: for every rank, the manual seen
count plus the open-hand occurrences stay within the physical capacity. -/
def P1 (s : SimState) : Prop :=
  ∀ v ∈ cardValues, s.seen v + Sim.occ s v ≤ Sim.cap s v

/-- States of the simulation_gui engine reachable from the startup
defaults through the mutating operations named by the conservation claim
(mark-seen, add-card, remove, split, settle, import) together with the
remaining hand edits and betting refreshes, under a fixed pure bet-ramp
oracle and fixed configuration. -/
inductive SimReach (oracle : List Nat → Nat) : SimState → Prop where
  | init : SimReach oracle simInitial
  | markSeen (s : SimState) (v : Nat) (delta : Int) : SimReach oracle s →
      SimReach oracle (Sim.modifySeenCard oracle s v delta)
  | addCard (s : SimState) (t : Targ) (v : Nat) (hi : Option Nat) : SimReach oracle s →
      SimReach oracle (Sim.addCardToHand oracle s t v hi)
  | removeCard (s : SimState) (t : Targ) (v : Nat) (hi : Option Nat) : SimReach oracle s →
      SimReach oracle (Sim.removeCardByValue oracle s t v hi)
  | removeSelected (s : SimState) (t : Targ) (hi : Option Nat) (sel : List Nat) :
      SimReach oracle s → SimReach oracle (Sim.removeSelectedCard oracle s t hi sel)
  | clearHand (s : SimState) (t : Targ) (hi : Option Nat) : SimReach oracle s →
      SimReach oracle (Sim.clearHand oracle s t hi)
  | split (s : SimState) : SimReach oracle s →
      SimReach oracle (Sim.addPlayerHand oracle s)
  | removeHand (s : SimState) : SimReach oracle s →
      SimReach oracle (Sim.removeCurrentPlayerHand oracle s)
  | settle (s : SimState) (outcome : Outcome) (dlg : Option (List Outcome)) :
      SimReach oracle s → SimReach oracle (Sim.recordGameResult oracle s outcome dlg)
  | importText (s : SimState) (text : List Char) : SimReach oracle s →
      SimReach oracle (Sim.importHands oracle s text).1
  | refresh (s : SimState) : SimReach oracle s →
      SimReach oracle (Sim.updateBetting oracle s)

/-! ### Claim-side definitions (modelled from the claim wording, for the
refinement comparisons) -/

/-- Modelled from the claim wording of C6 (spec §4.2 `split`): one of the
two equal cards moves into a new single-card hand INSERTED IMMEDIATELY
AFTER the split hand's index, shifting all later hands up by one. -/
def claimSplitHands (hands : List (List Nat)) (idx : Nat) : List (List Nat) :=
  let hand := hands.getD idx []
  let card := hand.getLastD 0
  (hands.set idx hand.dropLast).insertIdx (idx + 1) [card]

/-- Modelled from the claim wording of C8 (spec §4.4): `damped =
max(1, floor(1 + (raw_units - 1) * physical_left / needed))`. -/
def claimDampedUnits (rawUnits : Nat) (physicalLeft needed : Int) : Nat :=
  max 1 (Int.toNat ⌊(1 : ℚ) + ((rawUnits : ℚ) - 1) * ((physicalLeft : ℚ) / (needed : ℚ))⌋)

/-- A constant bet-ramp oracle for the concrete evaluations. -/
def oracleConst (n : Nat) : List Nat → Nat := fun _ => n

/-! ### Concrete states for the witnesses and counterexamples -/

/-- A gui-package state with one deck, all four 5s already marked seen,
and an empty table. -/
def appStateFull5 : AppState :=
  { deckNumber := 1, bankroll := 1000, unitPercent := 1 / 2, minBet := 100,
    stats := statsDefault, seen := seenOf [(5, 4)], playerHands := [[]],
    dealerCards := [], activeHandIndex := 0, unseenBurned := 0,
    roundBet := none, lastBet := 0, roundDoubled := false }

/-- The matching simulation_gui state (one deck, all four 5s seen, empty
table). -/
def simStateFull5 : SimState :=
  { deckNumber := 1, bankrollVar := 1000, unitPercentVar := 1 / 2, minBetVar := 100,
    seen := seenOf [(5, 4)], playerHands := [[]], dealerCards := [],
    activeHandIndex := 0, unseenBurned := 0, lastBet := 0, roundBet := none,
    roundDoubled := false, stats := statsDefault }

/-- A gui-package state mid-round: one open hand, a locked bet of 100. -/
def appStateLocked : AppState :=
  { deckNumber := 3, bankroll := 1000, unitPercent := 1 / 2, minBet := 100,
    stats := statsDefault, seen := seenZero, playerHands := [[5]],
    dealerCards := [], activeHandIndex := 0, unseenBurned := 0,
    roundBet := some 100, lastBet := 40, roundDoubled := false }

/-- A gui-package state with a pair of 8s and a locked bet (Scenario C). -/
def appStatePair8 : AppState :=
  { appStateLocked with playerHands := [[8, 8]], roundBet := some 50 }

/-- A two-hand table about to be settled: player hands [10,9] and [5,5],
dealer [7], locked bet 100 (used against both engines). -/
def simStateTwoHands : SimState :=
  { deckNumber := 3, bankrollVar := 1000, unitPercentVar := 1 / 2, minBetVar := 100,
    seen := seenZero, playerHands := [[10, 9], [5, 5]], dealerCards := [7],
    activeHandIndex := 0, unseenBurned := 0, lastBet := 50, roundBet := some 100,
    roundDoubled := false, stats := statsDefault }

/-- The same two-hand table in the gui package. -/
def appStateTwoHands : AppState :=
  { deckNumber := 3, bankroll := 1000, unitPercent := 1 / 2, minBet := 100,
    stats := statsDefault, seen := seenZero, playerHands := [[10, 9], [5, 5]],
    dealerCards := [7], activeHandIndex := 0, unseenBurned := 0,
    roundBet := some 100, lastBet := 50, roundDoubled := false }

/-- A simulation_gui state with two hands where the first is a pair of
8s (for the split shape). -/
def simStatePair8 : SimState :=
  { simStateTwoHands with playerHands := [[8, 8], [5]], roundBet := some 50 }

/-- A deeply negative count: three decks, six tens marked seen
(running −6, cards left 150, true count −2.08). -/
def simStateNeg : SimState :=
  { deckNumber := 3, bankrollVar := 1000, unitPercentVar := 1 / 2, minBetVar := 100,
    seen := seenOf [(10, 6)], playerHands := [[]], dealerCards := [],
    activeHandIndex := 0, unseenBurned := 0, lastBet := 0, roundBet := none,
    roundDoubled := false, stats := statsDefault }

/-- The same deeply negative count in the gui package. -/
def appStateNeg : AppState :=
  { deckNumber := 3, bankroll := 1000, unitPercent := 1 / 2, minBet := 100,
    stats := statsDefault, seen := seenOf [(10, 6)], playerHands := [[]],
    dealerCards := [], activeHandIndex := 0, unseenBurned := 0,
    roundBet := none, lastBet := 0, roundDoubled := false }

/-- A true count of exactly −0.5: three decks, 52 cards seen with
running count −1 (9 low cards, 10 tens, 33 middle cards), 104 left. -/
def simStateHalf : SimState :=
  { simStateNeg with seen := seenOf [(2, 4), (3, 4), (4, 1), (7, 12), (8, 12), (9, 9), (10, 10)] }

/-- The same exact −0.5 true count in the gui package. -/
def appStateHalf : AppState :=
  { appStateNeg with seen := seenOf [(2, 4), (3, 4), (4, 1), (7, 12), (8, 12), (9, 9), (10, 10)] }

/-- A single-deck shallow shoe: three open two-card hands, dealer up
card, 30 cards marked seen, 15 physical cards left, positive count. -/
def simStateShallow : SimState :=
  { deckNumber := 1, bankrollVar := 1000, unitPercentVar := 1 / 2, minBetVar := 100,
    seen := seenOf [(4, 4), (5, 3), (6, 4), (7, 4), (8, 4), (9, 4), (10, 7)],
    playerHands := [[2, 3], [2, 3], [2, 3]], dealerCards := [5],
    activeHandIndex := 0, unseenBurned := 0, lastBet := 0, roundBet := none,
    roundDoubled := false, stats := statsDefault }

/-- The same shallow shoe in the gui package. -/
def appStateShallow : AppState :=
  { deckNumber := 1, bankroll := 1000, unitPercent := 1 / 2, minBet := 100,
    stats := statsDefault,
    seen := seenOf [(4, 4), (5, 3), (6, 4), (7, 4), (8, 4), (9, 4), (10, 7)],
    playerHands := [[2, 3], [2, 3], [2, 3]], dealerCards := [5],
    activeHandIndex := 0, unseenBurned := 0, roundBet := none, lastBet := 0,
    roundDoubled := false }

/-- A one-hand round about to be recorded as blackjack. -/
def appStateBJ : AppState :=
  { deckNumber := 3, bankroll := 1000, unitPercent := 1 / 2, minBet := 100,
    stats := statsDefault, seen := seenZero, playerHands := [[11, 10]],
    dealerCards := [7], activeHandIndex := 0, unseenBurned := 0,
    roundBet := some 100, lastBet := 40, roundDoubled := false }

/-- Clipboard text holding five 5s in one player hand (over capacity for
one deck) and a dealer 9. -/
def textFive5s : List Char := ":5H::5D::5C::5S::5H: Dealer Hand: :9C:".toList

/-- Clipboard text with a dealer marker but no player card tokens. -/
def textNoPlayer : List Char := "Dealer Hand: :5H:".toList

/-- The Scenario E clipboard text. -/
def textScenarioE : List Char := ":AH::KS:Dealer Hand::10D::7C:".toList

/-! ### List-counting infrastructure -/

theorem bumpSeenMany_apply (cards : List Nat) (f : Nat → Nat) (v : Nat) :
    bumpSeenMany f cards v = f v + cards.count v := by
  induction cards generalizing f with
  | nil => simp [bumpSeenMany]
  | cons c t ih =>
    show bumpSeenMany (updSeen f c (f c + 1)) t v = _
    rw [ih]
    simp only [updSeen, List.count_cons]
    by_cases h : v = c <;> simp [h, beq_iff_eq] <;> omega

theorem count_flatten_sublist {H₁ H₂ : List (List Nat)} (h : List.Sublist H₁ H₂) (v : Nat) :
    (H₁.flatten).count v ≤ (H₂.flatten).count v := by
  induction h with
  | slnil => simp
  | cons a _ ih => simp only [List.flatten_cons, List.count_append]; omega
  | cons₂ a _ ih => simp only [List.flatten_cons, List.count_append]; omega

theorem count_flatten_set (H : List (List Nat)) (i : Nat) (x : List Nat) (v : Nat)
    (h : i < H.length) :
    ((H.set i x).flatten).count v + (H.getD i []).count v =
      (H.flatten).count v + x.count v := by
  induction H generalizing i with
  | nil => simp at h
  | cons hd tl ih =>
    cases i with
    | zero => simp [List.count_append]; omega
    | succ n =>
      have hn : n < tl.length := by simpa using h
      have h2 := ih n hn
      simp only [List.set, List.flatten_cons, List.count_append, List.getD_cons_succ]
      omega

theorem count_removeLastOcc_le {l l2 : List Nat} {v : Nat}
    (h : removeLastOcc l v = some l2) (w : Nat) : l2.count w ≤ l.count w := by
  unfold removeLastOcc at h
  split at h
  · cases h
    have h1 : List.Sublist (l.reverse.erase v) l.reverse := List.erase_sublist v l.reverse
    calc ((l.reverse.erase v).reverse).count w
        = (l.reverse.erase v).count w := List.count_reverse ..
      _ ≤ l.reverse.count w := h1.count_le w
      _ = l.count w := List.count_reverse ..
  · cases h

theorem removeAtIdxs_sublist (sel : List Nat) (l : List Nat) :
    List.Sublist (removeAtIdxs l sel) l := by
  unfold removeAtIdxs
  generalize sel.reverse = xs
  induction xs generalizing l with
  | nil => simp
  | cons x xs ih =>
    simp only [List.foldl_cons]
    refine (ih _).trans ?_
    split
    · exact List.eraseIdx_sublist l x
    · exact List.Sublist.refl l

theorem mem_counterKeys_aux (l : List Nat) (acc : List Nat) (v : Nat) :
    v ∈ l.foldl (fun acc c => if c ∈ acc then acc else acc ++ [c]) acc ↔
      v ∈ acc ∨ v ∈ l := by
  induction l generalizing acc with
  | nil => simp
  | cons c t ih =>
    simp only [List.foldl_cons]
    split
    · rw [ih]
      constructor
      · rintro (h | h)
        · exact Or.inl h
        · exact Or.inr (List.mem_cons_of_mem c h)
      · rintro (h | h)
        · exact Or.inl h
        · rcases List.mem_cons.mp h with rfl | h
          · exact Or.inl (by assumption)
          · exact Or.inr h
    · rw [ih]
      simp [List.mem_append, List.mem_cons]
      tauto

theorem mem_counterKeys (l : List Nat) (v : Nat) :
    v ∈ Sim.counterKeys l ↔ v ∈ l := by
  unfold Sim.counterKeys
  rw [mem_counterKeys_aux]
  simp

/-! ### Projection lemmas for the small state transformers -/

@[simp] theorem updateBetting_seen (o : List Nat → Nat) (s : SimState) :
    (Sim.updateBetting o s).seen = s.seen := by
  simp only [Sim.updateBetting]; split <;> rfl

@[simp] theorem updateBetting_playerHands (o : List Nat → Nat) (s : SimState) :
    (Sim.updateBetting o s).playerHands = s.playerHands := by
  simp only [Sim.updateBetting]; split <;> rfl

@[simp] theorem updateBetting_dealerCards (o : List Nat → Nat) (s : SimState) :
    (Sim.updateBetting o s).dealerCards = s.dealerCards := by
  simp only [Sim.updateBetting]; split <;> rfl

@[simp] theorem updateBetting_deckNumber (o : List Nat → Nat) (s : SimState) :
    (Sim.updateBetting o s).deckNumber = s.deckNumber := by
  simp only [Sim.updateBetting]; split <;> rfl

@[simp] theorem updateBetting_activeHandIndex (o : List Nat → Nat) (s : SimState) :
    (Sim.updateBetting o s).activeHandIndex = s.activeHandIndex := by
  simp only [Sim.updateBetting]; split <;> rfl

@[simp] theorem updateBetting_roundBet (o : List Nat → Nat) (s : SimState) :
    (Sim.updateBetting o s).roundBet = s.roundBet := by
  simp only [Sim.updateBetting]; split <;> rfl

@[simp] theorem updateBetting_roundDoubled (o : List Nat → Nat) (s : SimState) :
    (Sim.updateBetting o s).roundDoubled = s.roundDoubled := by
  simp only [Sim.updateBetting]; split <;> rfl

@[simp] theorem updateBetting_stats (o : List Nat → Nat) (s : SimState) :
    (Sim.updateBetting o s).stats = s.stats := by
  simp only [Sim.updateBetting]; split <;> rfl

@[simp] theorem updateBetting_bankrollVar (o : List Nat → Nat) (s : SimState) :
    (Sim.updateBetting o s).bankrollVar = s.bankrollVar := by
  simp only [Sim.updateBetting]; split <;> rfl

@[simp] theorem updateBetting_unseenBurned (o : List Nat → Nat) (s : SimState) :
    (Sim.updateBetting o s).unseenBurned = s.unseenBurned := by
  simp only [Sim.updateBetting]; split <;> rfl

@[simp] theorem clearRoundBetIfIdle_seen (s : SimState) :
    (Sim.clearRoundBetIfIdle s).seen = s.seen := by
  unfold Sim.clearRoundBetIfIdle; split <;> rfl

@[simp] theorem clearRoundBetIfIdle_playerHands (s : SimState) :
    (Sim.clearRoundBetIfIdle s).playerHands = s.playerHands := by
  unfold Sim.clearRoundBetIfIdle; split <;> rfl

@[simp] theorem clearRoundBetIfIdle_dealerCards (s : SimState) :
    (Sim.clearRoundBetIfIdle s).dealerCards = s.dealerCards := by
  unfold Sim.clearRoundBetIfIdle; split <;> rfl

@[simp] theorem clearRoundBetIfIdle_deckNumber (s : SimState) :
    (Sim.clearRoundBetIfIdle s).deckNumber = s.deckNumber := by
  unfold Sim.clearRoundBetIfIdle; split <;> rfl

@[simp] theorem clearRoundBetIfIdle_activeHandIndex (s : SimState) :
    (Sim.clearRoundBetIfIdle s).activeHandIndex = s.activeHandIndex := by
  unfold Sim.clearRoundBetIfIdle; split <;> rfl

@[simp] theorem clearRoundBetIfIdle_stats (s : SimState) :
    (Sim.clearRoundBetIfIdle s).stats = s.stats := by
  unfold Sim.clearRoundBetIfIdle; split <;> rfl

@[simp] theorem clearRoundBetIfIdle_bankrollVar (s : SimState) :
    (Sim.clearRoundBetIfIdle s).bankrollVar = s.bankrollVar := by
  unfold Sim.clearRoundBetIfIdle; split <;> rfl

@[simp] theorem clearRoundBetIfIdle_roundDoubled (s : SimState) :
    (Sim.clearRoundBetIfIdle s).roundDoubled = s.roundDoubled := by
  unfold Sim.clearRoundBetIfIdle; split <;> rfl

@[simp] theorem clearRoundBetIfIdle_lastBet (s : SimState) :
    (Sim.clearRoundBetIfIdle s).lastBet = s.lastBet := by
  unfold Sim.clearRoundBetIfIdle; split <;> rfl

theorem clearRoundBetIfIdle_roundBet (s : SimState) :
    (Sim.clearRoundBetIfIdle s).roundBet =
      if Sim.roundInProgress s then s.roundBet else none := by
  unfold Sim.clearRoundBetIfIdle; split <;> simp_all

@[simp] theorem maybeLockRoundBet_seen (s : SimState) :
    (Sim.maybeLockRoundBet s).seen = s.seen := by
  unfold Sim.maybeLockRoundBet; cases s.roundBet <;> rfl

@[simp] theorem maybeLockRoundBet_playerHands (s : SimState) :
    (Sim.maybeLockRoundBet s).playerHands = s.playerHands := by
  unfold Sim.maybeLockRoundBet; cases s.roundBet <;> rfl

@[simp] theorem maybeLockRoundBet_dealerCards (s : SimState) :
    (Sim.maybeLockRoundBet s).dealerCards = s.dealerCards := by
  unfold Sim.maybeLockRoundBet; cases s.roundBet <;> rfl

@[simp] theorem maybeLockRoundBet_deckNumber (s : SimState) :
    (Sim.maybeLockRoundBet s).deckNumber = s.deckNumber := by
  unfold Sim.maybeLockRoundBet; cases s.roundBet <;> rfl

@[simp] theorem maybeLockRoundBet_activeHandIndex (s : SimState) :
    (Sim.maybeLockRoundBet s).activeHandIndex = s.activeHandIndex := by
  unfold Sim.maybeLockRoundBet; cases s.roundBet <;> rfl

@[simp] theorem maybeLockRoundBet_lastBet (s : SimState) :
    (Sim.maybeLockRoundBet s).lastBet = s.lastBet := by
  unfold Sim.maybeLockRoundBet; cases s.roundBet <;> rfl

theorem maybeLockRoundBet_roundBet (s : SimState) :
    (Sim.maybeLockRoundBet s).roundBet = some (s.roundBet.getD (max s.lastBet 0)) := by
  unfold Sim.maybeLockRoundBet; cases h : s.roundBet <;> simp [h]

@[simp] theorem fixHands_seen (s : SimState) : (Sim.fixHands s).seen = s.seen := by
  unfold Sim.fixHands; split <;> rfl

@[simp] theorem fixHands_dealerCards (s : SimState) :
    (Sim.fixHands s).dealerCards = s.dealerCards := by
  unfold Sim.fixHands; split <;> rfl

@[simp] theorem fixHands_deckNumber (s : SimState) :
    (Sim.fixHands s).deckNumber = s.deckNumber := by
  unfold Sim.fixHands; split <;> rfl

@[simp] theorem fixHands_activeHandIndex (s : SimState) :
    (Sim.fixHands s).activeHandIndex = s.activeHandIndex := by
  unfold Sim.fixHands; split <;> rfl

@[simp] theorem fixHands_roundBet (s : SimState) :
    (Sim.fixHands s).roundBet = s.roundBet := by
  unfold Sim.fixHands; split <;> rfl

@[simp] theorem fixHands_lastBet (s : SimState) :
    (Sim.fixHands s).lastBet = s.lastBet := by
  unfold Sim.fixHands; split <;> rfl

@[simp] theorem fixHands_stats (s : SimState) :
    (Sim.fixHands s).stats = s.stats := by
  unfold Sim.fixHands; split <;> rfl

@[simp] theorem fixHands_roundDoubled (s : SimState) :
    (Sim.fixHands s).roundDoubled = s.roundDoubled := by
  unfold Sim.fixHands; split <;> rfl

@[simp] theorem fixHands_bankrollVar (s : SimState) :
    (Sim.fixHands s).bankrollVar = s.bankrollVar := by
  unfold Sim.fixHands; split <;> rfl

@[simp] theorem fixHands_unseenBurned (s : SimState) :
    (Sim.fixHands s).unseenBurned = s.unseenBurned := by
  unfold Sim.fixHands; split <;> rfl

@[simp] theorem fixHands_flatten (s : SimState) :
    (Sim.fixHands s).playerHands.flatten = s.playerHands.flatten := by
  unfold Sim.fixHands; split <;> simp_all

theorem fixHands_ne_nil (s : SimState) : (Sim.fixHands s).playerHands ≠ [] := by
  unfold Sim.fixHands; split <;> simp_all

theorem resolveHandIndex_fst (s : SimState) (hi : Option Nat) :
    (Sim.resolveHandIndex s hi).1 = Sim.fixHands s := by
  unfold Sim.resolveHandIndex
  cases hi with
  | none => rfl
  | some i => dsimp only; split <;> rfl

theorem resolveHandIndex_snd_lt (s : SimState) (hi : Option Nat) :
    (Sim.resolveHandIndex s hi).2 < (Sim.fixHands s).playerHands.length := by
  have hne := fixHands_ne_nil s
  have hlen : 1 ≤ (Sim.fixHands s).playerHands.length := by
    cases h : (Sim.fixHands s).playerHands with
    | nil => exact absurd h hne
    | cons a t => simp
  unfold Sim.resolveHandIndex
  cases hi with
  | none => simp only; omega
  | some i =>
    dsimp only
    split
    · assumption
    · simp only; omega

@[simp] theorem rebuildTabs_seen (s : SimState) : (Sim.rebuildTabs s).seen = s.seen := by
  unfold Sim.rebuildTabs; simp

@[simp] theorem rebuildTabs_dealerCards (s : SimState) :
    (Sim.rebuildTabs s).dealerCards = s.dealerCards := by
  unfold Sim.rebuildTabs; simp

@[simp] theorem rebuildTabs_deckNumber (s : SimState) :
    (Sim.rebuildTabs s).deckNumber = s.deckNumber := by
  unfold Sim.rebuildTabs; simp

@[simp] theorem rebuildTabs_roundBet (s : SimState) :
    (Sim.rebuildTabs s).roundBet = s.roundBet := by
  unfold Sim.rebuildTabs; simp

@[simp] theorem rebuildTabs_lastBet (s : SimState) :
    (Sim.rebuildTabs s).lastBet = s.lastBet := by
  unfold Sim.rebuildTabs; simp

@[simp] theorem rebuildTabs_stats (s : SimState) :
    (Sim.rebuildTabs s).stats = s.stats := by
  unfold Sim.rebuildTabs; simp

@[simp] theorem rebuildTabs_playerHands (s : SimState) :
    (Sim.rebuildTabs s).playerHands = (Sim.fixHands s).playerHands := by
  unfold Sim.rebuildTabs; simp

@[simp] theorem rebuildTabs_roundDoubled (s : SimState) :
    (Sim.rebuildTabs s).roundDoubled = s.roundDoubled := by
  unfold Sim.rebuildTabs; simp

@[simp] theorem rebuildTabs_bankrollVar (s : SimState) :
    (Sim.rebuildTabs s).bankrollVar = s.bankrollVar := by
  unfold Sim.rebuildTabs; simp

@[simp] theorem rebuildTabs_unseenBurned (s : SimState) :
    (Sim.rebuildTabs s).unseenBurned = s.unseenBurned := by
  unfold Sim.rebuildTabs; simp

@[simp] theorem clearRoundBetIfIdle_unseenBurned (s : SimState) :
    (Sim.clearRoundBetIfIdle s).unseenBurned = s.unseenBurned := by
  unfold Sim.clearRoundBetIfIdle; split <;> rfl

@[simp] theorem maybeLockRoundBet_unseenBurned (s : SimState) :
    (Sim.maybeLockRoundBet s).unseenBurned = s.unseenBurned := by
  unfold Sim.maybeLockRoundBet; cases s.roundBet <;> rfl

@[simp] theorem maybeLockRoundBet_roundDoubled (s : SimState) :
    (Sim.maybeLockRoundBet s).roundDoubled = s.roundDoubled := by
  unfold Sim.maybeLockRoundBet; cases s.roundBet <;> rfl

@[simp] theorem maybeLockRoundBet_stats (s : SimState) :
    (Sim.maybeLockRoundBet s).stats = s.stats := by
  unfold Sim.maybeLockRoundBet; cases s.roundBet <;> rfl

@[simp] theorem maybeLockRoundBet_bankrollVar (s : SimState) :
    (Sim.maybeLockRoundBet s).bankrollVar = s.bankrollVar := by
  unfold Sim.maybeLockRoundBet; cases s.roundBet <;> rfl

/-! ### Shoe-preserving transformers and the conservation invariant -/

/-- Two states agree on everything the conservation invariant reads. -/
def shoeEq (t s : SimState) : Prop :=
  t.seen = s.seen ∧ t.playerHands.flatten = s.playerHands.flatten ∧
    t.dealerCards = s.dealerCards ∧ t.deckNumber = s.deckNumber

theorem shoeEq_refl (s : SimState) : shoeEq s s := ⟨rfl, rfl, rfl, rfl⟩

theorem shoeEq_trans {a b c : SimState} (h1 : shoeEq a b) (h2 : shoeEq b c) : shoeEq a c := by
  obtain ⟨x1, x2, x3, x4⟩ := h1
  obtain ⟨y1, y2, y3, y4⟩ := h2
  exact ⟨x1.trans y1, x2.trans y2, x3.trans y3, x4.trans y4⟩

theorem shoeEq_occ {t s : SimState} (h : shoeEq t s) (w : Nat) :
    Sim.occ t w = Sim.occ s w := by
  obtain ⟨_, h2, h3, _⟩ := h
  simp [Sim.occ, Sim.allPlayerCards, h2, h3]

theorem shoeEq_cap {t s : SimState} (h : shoeEq t s) (w : Nat) :
    Sim.cap t w = Sim.cap s w := by
  obtain ⟨_, _, _, h4⟩ := h
  simp [Sim.cap, h4]

theorem P1_of_shoeEq {t s : SimState} (h : shoeEq t s) (hp : P1 s) : P1 t := by
  intro v hv
  rw [h.1, shoeEq_occ h, shoeEq_cap h]
  exact hp v hv

theorem shoeEq_updateBetting (o : List Nat → Nat) (s : SimState) :
    shoeEq (Sim.updateBetting o s) s := by
  refine ⟨?_, ?_, ?_, ?_⟩ <;> simp

theorem shoeEq_clearRoundBetIfIdle (s : SimState) :
    shoeEq (Sim.clearRoundBetIfIdle s) s := by
  refine ⟨?_, ?_, ?_, ?_⟩ <;> simp

theorem shoeEq_maybeLockRoundBet (s : SimState) :
    shoeEq (Sim.maybeLockRoundBet s) s := by
  refine ⟨?_, ?_, ?_, ?_⟩ <;> simp

theorem shoeEq_fixHands (s : SimState) : shoeEq (Sim.fixHands s) s := by
  refine ⟨?_, ?_, ?_, ?_⟩ <;> simp

theorem shoeEq_rebuildTabs (s : SimState) : shoeEq (Sim.rebuildTabs s) s := by
  refine ⟨?_, ?_, ?_, ?_⟩ <;> simp

theorem shoeEq_ite_maybeLock (c : Prop) [Decidable c] (s : SimState) :
    shoeEq (if c then Sim.maybeLockRoundBet s else s) s := by
  split
  · exact shoeEq_maybeLockRoundBet s
  · exact shoeEq_refl s

theorem P1_updateBetting (o : List Nat → Nat) {s : SimState} (h : P1 s) :
    P1 (Sim.updateBetting o s) :=
  P1_of_shoeEq (shoeEq_updateBetting o s) h

/-- Effect of replacing one hand on the occurrence counts. -/
theorem occ_set (s : SimState) (idx : Nat) (x : List Nat)
    (hidx : idx < s.playerHands.length) (w : Nat) :
    Sim.occ { s with playerHands := s.playerHands.set idx x } w +
      (s.playerHands.getD idx []).count w = Sim.occ s w + x.count w := by
  simp only [Sim.occ, Sim.allPlayerCards]
  have := count_flatten_set s.playerHands idx x w hidx
  omega

/-- Case analysis of `_modify_seen_card`: either the absorbed-delta early
return fires, or the seen count is set to a value within the manual
cap. -/
theorem modifySeenCard_cases (o : List Nat → Nat) (s : SimState) (v : Nat) (delta : Int) :
    Sim.modifySeenCard o s v delta = s ∨
    ∃ n, n ≤ Sim.maxManualSeen s v ∧
      Sim.modifySeenCard o s v delta =
        Sim.updateBetting o { s with seen := updSeen s.seen v n } := by
  simp only [Sim.modifySeenCard]
  split
  · split
    · left; rfl
    · right; exact ⟨(0 : Int).toNat, by simp, rfl⟩
  · split
    · split
      · left; rfl
      · right
        refine ⟨_, ?_, rfl⟩
        simp
    · split
      · left; rfl
      · right
        refine ⟨_, ?_, rfl⟩
        rename_i h1 h2 _
        omega

/-- Writing a seen count within the manual cap preserves conservation. -/
theorem P1_setSeen {s : SimState} (v n : Nat) (hn : n ≤ Sim.maxManualSeen s v)
    (h : P1 s) : P1 { s with seen := updSeen s.seen v n } := by
  intro w hw
  have hcap := h w hw
  show updSeen s.seen v n w + Sim.occ s w ≤ Sim.cap s w
  by_cases hwv : w = v
  · subst hwv
    simp only [updSeen, if_pos rfl, if_true]
    have hman : Sim.maxManualSeen s w = Sim.cap s w - Sim.occ s w := rfl
    omega
  · simp only [updSeen, if_neg hwv]
    exact hcap

theorem P1_modifySeenCard (o : List Nat → Nat) (s : SimState) (v : Nat) (delta : Int)
    (h : P1 s) : P1 (Sim.modifySeenCard o s v delta) := by
  rcases modifySeenCard_cases o s v delta with heq | ⟨n, hn, heq⟩
  · rw [heq]; exact h
  · rw [heq]; exact P1_updateBetting o (P1_setSeen v n hn h)

/-- `_add_card_to_hand` rejects with the state unchanged whenever the
rank's seen count plus open-hand occurrences has reached capacity. -/
theorem addCard_rejected (o : List Nat → Nat) (s : SimState) (t : Targ) (v : Nat)
    (hi : Option Nat) (h : Sim.cap s v ≤ s.seen v + Sim.occ s v) :
    Sim.addCardToHand o s t v hi = s := by
  simp only [Sim.addCardToHand]
  rw [if_pos h]

/-- Appending a strictly-under-capacity rank to one player hand preserves
conservation. -/
theorem P1_set_append {s : SimState} (idx v : Nat) (hidx : idx < s.playerHands.length)
    (h : P1 s) (hv : v ∈ cardValues → s.seen v + Sim.occ s v < Sim.cap s v) :
    P1 { s with playerHands := s.playerHands.set idx ((s.playerHands.getD idx []) ++ [v]) } := by
  intro w hw
  have hcap := h w hw
  have hset := occ_set s idx ((s.playerHands.getD idx []) ++ [v]) hidx w
  show s.seen w + Sim.occ { s with playerHands := s.playerHands.set idx ((s.playerHands.getD idx []) ++ [v]) } w ≤ Sim.cap s w
  by_cases hwv : w = v
  · subst hwv
    have := hv hw
    have happ : List.count w (s.playerHands.getD idx [] ++ [w]) =
        List.count w (s.playerHands.getD idx []) + 1 := by simp
    omega
  · have happ : List.count w (s.playerHands.getD idx [] ++ [v]) =
        List.count w (s.playerHands.getD idx []) := by simp [List.count_append, hwv]
    omega

/-- Appending a strictly-under-capacity rank to the dealer hand preserves
conservation. -/
theorem P1_dealer_append {s : SimState} (v : Nat) (h : P1 s)
    (hv : v ∈ cardValues → s.seen v + Sim.occ s v < Sim.cap s v) :
    P1 { s with dealerCards := s.dealerCards ++ [v] } := by
  intro w hw
  have hcap := h w hw
  show s.seen w + Sim.occ { s with dealerCards := s.dealerCards ++ [v] } w ≤ Sim.cap s w
  have hocc : Sim.occ { s with dealerCards := s.dealerCards ++ [v] } w =
      (Sim.allPlayerCards s).count w + (s.dealerCards ++ [v]).count w := rfl
  have hocc0 : Sim.occ s w = (Sim.allPlayerCards s).count w + s.dealerCards.count w := rfl
  by_cases hwv : w = v
  · subst hwv
    have := hv hw
    have happ : List.count w (s.dealerCards ++ [w]) = List.count w s.dealerCards + 1 := by simp
    omega
  · have happ : List.count w (s.dealerCards ++ [v]) = List.count w s.dealerCards := by
      simp [List.count_append, hwv]
    omega

theorem P1_addCardToHand (o : List Nat → Nat) (s : SimState) (t : Targ) (v : Nat)
    (hi : Option Nat) (h : P1 s) : P1 (Sim.addCardToHand o s t v hi) := by
  by_cases hg : Sim.cap s v ≤ s.seen v + Sim.occ s v
  · rw [addCard_rejected o s t v hi hg]
    exact h
  · have hlt : s.seen v + Sim.occ s v < Sim.cap s v := Nat.lt_of_not_le (by
      intro hc
      exact hg (by omega))
    cases t with
    | player =>
      simp only [Sim.addCardToHand]
      rw [if_neg (Nat.not_le.mpr hlt)]
      apply P1_updateBetting
      have hsh : shoeEq (Sim.resolveHandIndex
          (if (!Sim.roundInProgress s) = true then Sim.maybeLockRoundBet s else s) hi).1 s := by
        rw [resolveHandIndex_fst]
        exact shoeEq_trans (shoeEq_fixHands _) (shoeEq_ite_maybeLock _ s)
      have hidx := resolveHandIndex_snd_lt
        (if (!Sim.roundInProgress s) = true then Sim.maybeLockRoundBet s else s) hi
      rw [← resolveHandIndex_fst _ hi] at hidx
      refine P1_set_append _ _ hidx (P1_of_shoeEq hsh h) ?_
      intro _
      rw [hsh.1, shoeEq_occ hsh, shoeEq_cap hsh]
      exact hlt
    | dealer =>
      simp only [Sim.addCardToHand]
      rw [if_neg (Nat.not_le.mpr hlt)]
      apply P1_updateBetting
      have hsh : shoeEq
          (if (!Sim.roundInProgress s) = true then Sim.maybeLockRoundBet s else s) s :=
        shoeEq_ite_maybeLock _ s
      refine P1_dealer_append _ (P1_of_shoeEq hsh h) ?_
      intro _
      rw [hsh.1, shoeEq_occ hsh, shoeEq_cap hsh]
      exact hlt

/-- Conservation transfers along any step that keeps the seen table and
deck and does not increase any occurrence count. -/
theorem P1_transfer {s t : SimState} (hseen : t.seen = s.seen)
    (hdeck : t.deckNumber = s.deckNumber)
    (hocc : ∀ w, Sim.occ t w ≤ Sim.occ s w) (h : P1 s) : P1 t := by
  intro v hv
  have h1 := h v hv
  have h2 := hocc v
  have hc : Sim.cap t v = Sim.cap s v := by simp [Sim.cap, hdeck]
  rw [hseen, hc]
  omega

/-- Replacing one player hand by a hand with no larger counts preserves
conservation. -/
theorem P1_set_le {s : SimState} (idx : Nat) (x : List Nat)
    (hidx : idx < s.playerHands.length)
    (hx : ∀ w, x.count w ≤ (s.playerHands.getD idx []).count w) (h : P1 s) :
    P1 { s with playerHands := s.playerHands.set idx x } := by
  intro w hw
  have hcap := h w hw
  have hset := occ_set s idx x hidx w
  have hle := hx w
  show s.seen w + Sim.occ { s with playerHands := s.playerHands.set idx x } w ≤ Sim.cap s w
  omega

theorem P1_removeCardByValue (o : List Nat → Nat) (s : SimState) (t : Targ) (v : Nat)
    (hi : Option Nat) (h : P1 s) : P1 (Sim.removeCardByValue o s t v hi) := by
  have hshr : shoeEq (Sim.resolveHandIndex s hi).1 s := by
    rw [resolveHandIndex_fst]; exact shoeEq_fixHands s
  cases t with
  | player =>
    simp only [Sim.removeCardByValue]
    cases hrm : removeLastOcc
        ((Sim.resolveHandIndex s hi).1.playerHands.getD (Sim.resolveHandIndex s hi).2 []) v with
    | none => exact P1_of_shoeEq hshr h
    | some cards2 =>
      apply P1_updateBetting
      apply P1_of_shoeEq (shoeEq_clearRoundBetIfIdle _)
      have hidx := resolveHandIndex_snd_lt s hi
      rw [← resolveHandIndex_fst _ hi] at hidx
      exact P1_set_le _ _ hidx (count_removeLastOcc_le hrm) (P1_of_shoeEq hshr h)
  | dealer =>
    simp only [Sim.removeCardByValue]
    cases hrm : removeLastOcc s.dealerCards v with
    | none => exact h
    | some cards2 =>
      apply P1_updateBetting
      apply P1_of_shoeEq (shoeEq_clearRoundBetIfIdle _)
      refine @P1_transfer s _ rfl rfl (fun w => ?_) h
      have hocc : Sim.occ { s with dealerCards := cards2 } w =
          (Sim.allPlayerCards s).count w + cards2.count w := rfl
      have hocc0 : Sim.occ s w = (Sim.allPlayerCards s).count w + s.dealerCards.count w := rfl
      have := count_removeLastOcc_le hrm w
      omega

theorem P1_removeSelectedCard (o : List Nat → Nat) (s : SimState) (t : Targ)
    (hi : Option Nat) (sel : List Nat) (h : P1 s) :
    P1 (Sim.removeSelectedCard o s t hi sel) := by
  have hshr : shoeEq (Sim.resolveHandIndex s hi).1 s := by
    rw [resolveHandIndex_fst]; exact shoeEq_fixHands s
  cases t with
  | player =>
    simp only [Sim.removeSelectedCard]
    split
    · exact P1_of_shoeEq hshr h
    · apply P1_updateBetting
      apply P1_of_shoeEq (shoeEq_clearRoundBetIfIdle _)
      have hidx := resolveHandIndex_snd_lt s hi
      rw [← resolveHandIndex_fst _ hi] at hidx
      refine P1_set_le _ _ hidx (fun w => ?_) (P1_of_shoeEq hshr h)
      exact (removeAtIdxs_sublist sel _).count_le w
  | dealer =>
    simp only [Sim.removeSelectedCard]
    split
    · exact h
    · apply P1_updateBetting
      apply P1_of_shoeEq (shoeEq_clearRoundBetIfIdle _)
      refine @P1_transfer s _ rfl rfl (fun w => ?_) h
      have hocc : Sim.occ { s with dealerCards := removeAtIdxs s.dealerCards sel } w =
          (Sim.allPlayerCards s).count w + (removeAtIdxs s.dealerCards sel).count w := rfl
      have hocc0 : Sim.occ s w = (Sim.allPlayerCards s).count w + s.dealerCards.count w := rfl
      have := (removeAtIdxs_sublist sel s.dealerCards).count_le w
      omega

/-- `_clear_hand` on the player target with no index resets to a single
empty hand. -/
theorem clearHand_player_none (o : List Nat → Nat) (s : SimState) :
    Sim.clearHand o s .player none =
      Sim.updateBetting o (Sim.clearRoundBetIfIdle
        (Sim.rebuildTabs { s with playerHands := [[]], activeHandIndex := 0 })) := rfl

/-- `_clear_hand` on the dealer target. -/
theorem clearHand_dealer (o : List Nat → Nat) (s : SimState) (hi : Option Nat) :
    Sim.clearHand o s .dealer hi =
      Sim.updateBetting o (Sim.clearRoundBetIfIdle { s with dealerCards := [] }) := by
  cases hi <;> rfl

theorem P1_clearHand (o : List Nat → Nat) (s : SimState) (t : Targ) (hi : Option Nat)
    (h : P1 s) : P1 (Sim.clearHand o s t hi) := by
  cases t with
  | player =>
    cases hi with
    | none =>
      rw [clearHand_player_none]
      apply P1_updateBetting
      apply P1_of_shoeEq (shoeEq_clearRoundBetIfIdle _)
      apply P1_of_shoeEq (shoeEq_rebuildTabs _)
      refine @P1_transfer s _ rfl rfl (fun w => ?_) h
      have hocc : Sim.occ { s with playerHands := [[]], activeHandIndex := 0 } w =
          ([] : List Nat).count w + s.dealerCards.count w := rfl
      have hocc0 : Sim.occ s w = (Sim.allPlayerCards s).count w + s.dealerCards.count w := rfl
      simp only [hocc, hocc0, List.count_nil]
      omega
    | some i =>
      simp only [Sim.clearHand]
      apply P1_updateBetting
      apply P1_of_shoeEq (shoeEq_clearRoundBetIfIdle _)
      have hshr : shoeEq (Sim.resolveHandIndex s (some i)).1 s := by
        rw [resolveHandIndex_fst]; exact shoeEq_fixHands s
      have hidx := resolveHandIndex_snd_lt s (some i)
      rw [← resolveHandIndex_fst _ (some i)] at hidx
      refine P1_set_le _ _ hidx (fun w => ?_) (P1_of_shoeEq hshr h)
      simp
  | dealer =>
    rw [clearHand_dealer]
    apply P1_updateBetting
    apply P1_of_shoeEq (shoeEq_clearRoundBetIfIdle _)
    refine @P1_transfer s _ rfl rfl (fun w => ?_) h
    have hocc : Sim.occ { s with dealerCards := ([] : List Nat) } w =
        (Sim.allPlayerCards s).count w + ([] : List Nat).count w := rfl
    have hocc0 : Sim.occ s w = (Sim.allPlayerCards s).count w + s.dealerCards.count w := rfl
    simp only [hocc, hocc0, List.count_nil]
    omega

/-- Moving the last of two cards of one hand into a new appended hand
preserves all occurrence counts. -/
theorem P1_split_move {s : SimState} (idx : Nat) (hidx : idx < s.playerHands.length)
    (hlen : (s.playerHands.getD idx []).length = 2)
    (h : P1 s) :
    P1 { s with playerHands := (s.playerHands.set idx (s.playerHands.getD idx []).dropLast) ++
      [[(s.playerHands.getD idx []).getLastD 0]] } := by
  obtain ⟨a, b, hab⟩ := List.length_eq_two.mp hlen
  refine @P1_transfer s _ rfl rfl (fun w => ?_) h
  show (((s.playerHands.set idx (s.playerHands.getD idx []).dropLast) ++
      [[(s.playerHands.getD idx []).getLastD 0]]).flatten).count w + s.dealerCards.count w ≤
    (s.playerHands.flatten).count w + s.dealerCards.count w
  have hset := count_flatten_set s.playerHands idx (s.playerHands.getD idx []).dropLast w hidx
  have happ : (((s.playerHands.set idx (s.playerHands.getD idx []).dropLast) ++
      [[(s.playerHands.getD idx []).getLastD 0]]).flatten).count w =
      (((s.playerHands.set idx (s.playerHands.getD idx []).dropLast)).flatten).count w +
        ([(s.playerHands.getD idx []).getLastD 0] : List Nat).count w := by
    simp [List.count_append]
  have hcnt : ([(s.playerHands.getD idx []).getLastD 0] : List Nat).count w +
      ((s.playerHands.getD idx []).dropLast).count w = (s.playerHands.getD idx []).count w := by
    rw [hab]
    by_cases hw : w = a <;> by_cases hw2 : w = b <;>
      simp [hw, hw2, List.count_cons, List.count_singleton]
  omega

theorem P1_addPlayerHand (o : List Nat → Nat) (s : SimState) (h : P1 s) :
    P1 (Sim.addPlayerHand o s) := by
  have hshr : shoeEq (Sim.resolveHandIndex s (some s.activeHandIndex)).1 s := by
    rw [resolveHandIndex_fst]; exact shoeEq_fixHands s
  have hp1 : P1 (Sim.resolveHandIndex s (some s.activeHandIndex)).1 := P1_of_shoeEq hshr h
  have hidx := resolveHandIndex_snd_lt s (some s.activeHandIndex)
  rw [← resolveHandIndex_fst _ (some s.activeHandIndex)] at hidx
  simp only [Sim.addPlayerHand]
  split
  · rename_i hcond
    apply P1_updateBetting
    apply P1_of_shoeEq (shoeEq_rebuildTabs _)
    exact P1_split_move _ hidx hcond.1 hp1
  · apply P1_updateBetting
    apply P1_of_shoeEq (shoeEq_rebuildTabs _)
    refine @P1_transfer (Sim.resolveHandIndex s (some s.activeHandIndex)).1 _ rfl rfl
      (fun w => ?_) hp1
    show (((Sim.resolveHandIndex s (some s.activeHandIndex)).1.playerHands ++
        ([[]] : List (List Nat))).flatten).count w +
        (Sim.resolveHandIndex s (some s.activeHandIndex)).1.dealerCards.count w ≤
      ((Sim.resolveHandIndex s (some s.activeHandIndex)).1.playerHands.flatten).count w +
        (Sim.resolveHandIndex s (some s.activeHandIndex)).1.dealerCards.count w
    simp [List.count_append]

theorem P1_removeCurrentPlayerHand (o : List Nat → Nat) (s : SimState) (h : P1 s) :
    P1 (Sim.removeCurrentPlayerHand o s) := by
  simp only [Sim.removeCurrentPlayerHand]
  split
  · exact h
  · apply P1_updateBetting
    apply P1_of_shoeEq (shoeEq_rebuildTabs _)
    refine @P1_transfer s _ rfl rfl (fun w => ?_) h
    have hle := count_flatten_sublist (List.eraseIdx_sublist s.playerHands s.activeHandIndex) w
    exact Nat.add_le_add_right hle _

@[simp] theorem applyBankrollDelta_seen (s : SimState) (d : ℚ) :
    (Sim.applyBankrollDelta s d).seen = s.seen := by
  unfold Sim.applyBankrollDelta; split <;> rfl

@[simp] theorem applyBankrollDelta_playerHands (s : SimState) (d : ℚ) :
    (Sim.applyBankrollDelta s d).playerHands = s.playerHands := by
  unfold Sim.applyBankrollDelta; split <;> rfl

@[simp] theorem applyBankrollDelta_dealerCards (s : SimState) (d : ℚ) :
    (Sim.applyBankrollDelta s d).dealerCards = s.dealerCards := by
  unfold Sim.applyBankrollDelta; split <;> rfl

@[simp] theorem applyBankrollDelta_deckNumber (s : SimState) (d : ℚ) :
    (Sim.applyBankrollDelta s d).deckNumber = s.deckNumber := by
  unfold Sim.applyBankrollDelta; split <;> rfl

@[simp] theorem applyBankrollDelta_roundBet (s : SimState) (d : ℚ) :
    (Sim.applyBankrollDelta s d).roundBet = s.roundBet := by
  unfold Sim.applyBankrollDelta; split <;> rfl

@[simp] theorem applyBankrollDelta_roundDoubled (s : SimState) (d : ℚ) :
    (Sim.applyBankrollDelta s d).roundDoubled = s.roundDoubled := by
  unfold Sim.applyBankrollDelta; split <;> rfl

@[simp] theorem applyBankrollDelta_activeHandIndex (s : SimState) (d : ℚ) :
    (Sim.applyBankrollDelta s d).activeHandIndex = s.activeHandIndex := by
  unfold Sim.applyBankrollDelta; split <;> rfl

@[simp] theorem appendHistoryEntry_wins (st : SessionStats) :
    (appendHistoryEntry st).wins = st.wins := by
  unfold appendHistoryEntry; split <;> rfl

@[simp] theorem appendHistoryEntry_losses (st : SessionStats) :
    (appendHistoryEntry st).losses = st.losses := by
  unfold appendHistoryEntry; split <;> rfl

@[simp] theorem appendHistoryEntry_pushes (st : SessionStats) :
    (appendHistoryEntry st).pushes = st.pushes := by
  unfold appendHistoryEntry; split <;> rfl

@[simp] theorem appendHistoryEntry_netProfit (st : SessionStats) :
    (appendHistoryEntry st).netProfit = st.netProfit := by
  unfold appendHistoryEntry; split <;> rfl

theorem rebuildTabs_activeHandIndex (s : SimState) :
    (Sim.rebuildTabs s).activeHandIndex =
      min s.activeHandIndex ((Sim.fixHands s).playerHands.length - 1) := by
  unfold Sim.rebuildTabs
  simp

/-- `_round_in_progress` as an explicit formula for rewriting. -/
theorem roundInProgress_eq (s : SimState) :
    Sim.roundInProgress s =
      (s.playerHands.any (fun h => !h.isEmpty) || !s.dealerCards.isEmpty) := rfl

/-- Full state description of a successful `_log_current_hands_as_seen`:
every open card is added to the seen counts, the table resets to a single
empty player hand, the round bet unlocks and the double flag clears, and
the statistics, bankroll and configuration are untouched. -/
theorem logCurrentHands_some (o : List Nat → Nat) (s : SimState)
    (h : ¬(Sim.allPlayerCards s = [] ∧ s.dealerCards = [])) :
    ∃ s1, Sim.logCurrentHandsAsSeen o s = some s1 ∧
      s1.seen = bumpSeenMany s.seen (Sim.allPlayerCards s ++ s.dealerCards) ∧
      s1.playerHands = [[]] ∧ s1.dealerCards = [] ∧ s1.activeHandIndex = 0 ∧
      s1.roundBet = none ∧ s1.roundDoubled = false ∧ s1.stats = s.stats ∧
      s1.bankrollVar = s.bankrollVar ∧ s1.deckNumber = s.deckNumber := by
  simp only [Sim.logCurrentHandsAsSeen]
  rw [if_neg h]
  refine ⟨_, rfl, ?_, ?_, ?_, ?_, ?_, ?_, ?_, ?_, ?_⟩ <;>
    simp [clearHand_player_none, clearHand_dealer, clearRoundBetIfIdle_roundBet,
      Sim.rebuildTabs, Sim.fixHands, Sim.roundInProgress]

theorem P1_recordGameResult (o : List Nat → Nat) (s : SimState) (outcome : Outcome)
    (dlg : Option (List Outcome)) (h : P1 s) :
    P1 (Sim.recordGameResult o s outcome dlg) := by
  simp only [Sim.recordGameResult]
  split
  · exact h
  · rename_i hne
    cases hc : Sim.collectHandOutcomes s outcome dlg with
    | none => exact h
    | some hos =>
      obtain ⟨s1, hlog, hseen, hph, hdc, _, _, _, _, _, hdk⟩ := logCurrentHands_some o s hne
      rw [hlog]
      dsimp only
      have hp1 : P1 s1 := by
        intro v hv
        have hocc1 : Sim.occ s1 v = 0 := by
          simp [Sim.occ, Sim.allPlayerCards, hph, hdc]
        have hcnt : (Sim.allPlayerCards s ++ s.dealerCards).count v = Sim.occ s v := by
          simp [Sim.occ, List.count_append]
        have hcap : Sim.cap s1 v = Sim.cap s v := by simp [Sim.cap, hdk]
        rw [hseen, hocc1, bumpSeenMany_apply, hcnt, hcap]
        have := h v hv
        omega
      refine P1_of_shoeEq ⟨?_, ?_, ?_, ?_⟩ hp1 <;> cases outcome <;> simp

theorem P1_importHands (o : List Nat → Nat) (s : SimState) (text : List Char)
    (h : P1 s) : P1 (Sim.importHands o s text).1 := by
  simp only [Sim.importHands]
  split
  · exact h
  · cases hp : simParseClipboardHands text with
    | error e => exact h
    | ok pd =>
      dsimp only
      cases hv : Sim.validateImportCapacity s pd.1 pd.2 with
      | some v => exact h
      | none =>
        dsimp only
        split
        · exact h
        · split
          · exact h
          · dsimp only
            apply P1_updateBetting
            apply P1_of_shoeEq (shoeEq_rebuildTabs _)
            intro w hw
            have hnone := List.find?_eq_none.mp hv
            have hcnt : Sim.occ { s with playerHands := pd.1, activeHandIndex := 0, dealerCards := pd.2 } w = (pd.1.flatten ++ pd.2).count w := by
              simp [Sim.occ, Sim.allPlayerCards, List.count_append]
            show s.seen w + Sim.occ { s with playerHands := pd.1, activeHandIndex := 0, dealerCards := pd.2 } w ≤ Sim.cap s w
            rw [hcnt]
            by_cases hin : 0 < (pd.1.flatten ++ pd.2).count w
            · have hmem : w ∈ Sim.counterKeys (pd.1.flatten ++ pd.2) :=
                (mem_counterKeys _ w).mpr (List.count_pos_iff.mp hin)
              have hb := hnone w hmem
              simp only [decide_eq_true_eq, Nat.not_lt] at hb
              exact hb
            · have hz : (pd.1.flatten ++ pd.2).count w = 0 := by omega
              rw [hz]
              have := h w hw
              omega

theorem P1_refresh (o : List Nat → Nat) (s : SimState) (h : P1 s) :
    P1 (Sim.updateBetting o s) := P1_updateBetting o h

/-- The startup defaults satisfy conservation. -/
theorem P1_simInitial : P1 simInitial := by
  intro v hv
  exact Nat.zero_le _

/-- Every reachable state of the simulation_gui engine satisfies the
conservation invariant. -/
theorem P1_of_SimReach (oracle : List Nat → Nat) (s : SimState)
    (h : SimReach oracle s) : P1 s := by
  induction h with
  | init => exact P1_simInitial
  | markSeen s v delta _ ih => exact P1_modifySeenCard oracle s v delta ih
  | addCard s t v hi _ ih => exact P1_addCardToHand oracle s t v hi ih
  | removeCard s t v hi _ ih => exact P1_removeCardByValue oracle s t v hi ih
  | removeSelected s t hi sel _ ih => exact P1_removeSelectedCard oracle s t hi sel ih
  | clearHand s t hi _ ih => exact P1_clearHand oracle s t hi ih
  | split s _ ih => exact P1_addPlayerHand oracle s ih
  | removeHand s _ ih => exact P1_removeCurrentPlayerHand oracle s ih
  | settle s outcome dlg _ ih => exact P1_recordGameResult oracle s outcome dlg ih
  | importText s text _ ih => exact P1_importHands oracle s text ih
  | refresh s _ ih => exact P1_refresh oracle s ih

/-! ### Lock-stability lemmas (simulation_gui) -/

@[simp] theorem updateBetting_roundInProgress (o : List Nat → Nat) (s : SimState) :
    Sim.roundInProgress (Sim.updateBetting o s) = Sim.roundInProgress s := by
  rw [roundInProgress_eq, roundInProgress_eq]; simp

@[simp] theorem clearRoundBetIfIdle_roundInProgress (s : SimState) :
    Sim.roundInProgress (Sim.clearRoundBetIfIdle s) = Sim.roundInProgress s := by
  rw [roundInProgress_eq, roundInProgress_eq]; simp

/-- Adding a card never clears an already-locked bet (`_maybe_lock_round_bet`
keeps an existing lock; the capacity rejection leaves the state alone). -/
theorem addCard_roundBet_locked (o : List Nat → Nat) (s : SimState) (t : Targ) (v : Nat)
    (hi : Option Nat) (b : ℚ) (hb : s.roundBet = some b) :
    (Sim.addCardToHand o s t v hi).roundBet = some b := by
  by_cases hg : Sim.cap s v ≤ s.seen v + Sim.occ s v
  · rw [addCard_rejected o s t v hi hg, hb]
  · cases t with
    | player =>
      simp only [Sim.addCardToHand]
      rw [if_neg hg]
      simp only [updateBetting_roundBet]
      rw [resolveHandIndex_fst]
      simp only [fixHands_roundBet]
      split
      · rw [maybeLockRoundBet_roundBet, hb]; rfl
      · exact hb
    | dealer =>
      simp only [Sim.addCardToHand]
      rw [if_neg hg]
      simp only [updateBetting_roundBet]
      split
      · rw [maybeLockRoundBet_roundBet, hb]; rfl
      · exact hb

/-- On the first card added to an all-empty table, the lock captures the
previously computed recommendation `_last_bet_amount` (clamped at 0),
before the new card enters any computation. -/
theorem addCard_roundBet_capture (o : List Nat → Nat) (s : SimState) (t : Targ) (v : Nat)
    (hi : Option Nat) (hb : s.roundBet = none)
    (hidle : Sim.roundInProgress s = false)
    (hg : s.seen v + Sim.occ s v < Sim.cap s v) :
    (Sim.addCardToHand o s t v hi).roundBet = some (max s.lastBet 0) := by
  cases t with
  | player =>
    simp only [Sim.addCardToHand]
    rw [if_neg (Nat.not_le.mpr hg)]
    simp only [updateBetting_roundBet]
    rw [resolveHandIndex_fst]
    simp only [fixHands_roundBet]
    rw [if_pos (by rw [hidle]; rfl)]
    rw [maybeLockRoundBet_roundBet, hb]
    rfl
  | dealer =>
    simp only [Sim.addCardToHand]
    rw [if_neg (Nat.not_le.mpr hg)]
    simp only [updateBetting_roundBet]
    rw [if_pos (by rw [hidle]; rfl)]
    rw [maybeLockRoundBet_roundBet, hb]
    rfl

/-- Removing a card keeps the locked bet unless the whole table became
empty, in which case the lock returns to null. -/
theorem removeCard_roundBet (o : List Nat → Nat) (s : SimState) (t : Targ) (v : Nat)
    (hi : Option Nat) (b : ℚ) (hb : s.roundBet = some b) :
    (Sim.removeCardByValue o s t v hi).roundBet = some b ∨
      ((Sim.removeCardByValue o s t v hi).roundBet = none ∧
        Sim.roundInProgress (Sim.removeCardByValue o s t v hi) = false) := by
  cases t with
  | player =>
    simp only [Sim.removeCardByValue]
    cases hrm : removeLastOcc
        ((Sim.resolveHandIndex s hi).1.playerHands.getD (Sim.resolveHandIndex s hi).2 []) v with
    | none =>
      left
      rw [resolveHandIndex_fst]
      simp [hb]
    | some cards2 =>
      by_cases hip : Sim.roundInProgress { (Sim.resolveHandIndex s hi).1 with
          playerHands := (Sim.resolveHandIndex s hi).1.playerHands.set
            (Sim.resolveHandIndex s hi).2 cards2 }
      · left
        simp only [updateBetting_roundBet, clearRoundBetIfIdle_roundBet]
        rw [if_pos hip]
        simp [resolveHandIndex_fst, hb]
      · right
        refine ⟨?_, ?_⟩
        · simp only [updateBetting_roundBet, clearRoundBetIfIdle_roundBet]
          rw [if_neg hip]
        · simp only [updateBetting_roundInProgress, clearRoundBetIfIdle_roundInProgress]
          simpa using hip
  | dealer =>
    simp only [Sim.removeCardByValue]
    cases hrm : removeLastOcc s.dealerCards v with
    | none => left; exact hb
    | some cards2 =>
      by_cases hip : Sim.roundInProgress { s with dealerCards := cards2 }
      · left
        simp only [updateBetting_roundBet, clearRoundBetIfIdle_roundBet]
        rw [if_pos hip]
        exact hb
      · right
        refine ⟨?_, ?_⟩
        · simp only [updateBetting_roundBet, clearRoundBetIfIdle_roundBet]
          rw [if_neg hip]
        · simp only [updateBetting_roundInProgress, clearRoundBetIfIdle_roundInProgress]
          simpa using hip

/-- The split/add-hand action never touches the locked bet. -/
theorem addPlayerHand_roundBet (o : List Nat → Nat) (s : SimState) :
    (Sim.addPlayerHand o s).roundBet = s.roundBet := by
  simp only [Sim.addPlayerHand]
  split <;>
    · simp only [updateBetting_roundBet, rebuildTabs_roundBet]
      rw [resolveHandIndex_fst]
      simp

/-- A completed settlement always unlocks the round bet. -/
theorem recordGameResult_roundBet_none (o : List Nat → Nat) (s : SimState)
    (outcome : Outcome) (dlg : Option (List Outcome)) (hos : List Outcome)
    (hne : ¬(Sim.allPlayerCards s = [] ∧ s.dealerCards = []))
    (hc : Sim.collectHandOutcomes s outcome dlg = some hos) :
    (Sim.recordGameResult o s outcome dlg).roundBet = none := by
  simp only [Sim.recordGameResult]
  rw [if_neg hne, hc]
  obtain ⟨s1, hlog, _, _, _, _, _, _, _, _, _⟩ := logCurrentHands_some o s hne
  rw [hlog]
  dsimp only
  cases outcome <;> simp

@[simp] theorem applyBankrollDelta_stats (s : SimState) (d : ℚ) :
    (Sim.applyBankrollDelta s d).stats = s.stats := by
  unfold Sim.applyBankrollDelta; split <;> rfl

/-- Field-level description of a completed `_record_game_result`: every
open card moves into the seen counts, the table resets, exactly one
counter (chosen by the pressed button, NOT by the per-hand outcome list)
advances by one, and the net profit moves by the computed delta. -/
theorem recordGameResult_spec (o : List Nat → Nat) (s : SimState) (outcome : Outcome)
    (dlg : Option (List Outcome)) (hos : List Outcome)
    (hne : ¬(Sim.allPlayerCards s = [] ∧ s.dealerCards = []))
    (hc : Sim.collectHandOutcomes s outcome dlg = some hos) :
    (∀ v, (Sim.recordGameResult o s outcome dlg).seen v =
        s.seen v + (Sim.allPlayerCards s ++ s.dealerCards).count v) ∧
      (Sim.recordGameResult o s outcome dlg).playerHands = [[]] ∧
      (Sim.recordGameResult o s outcome dlg).dealerCards = [] ∧
      (Sim.recordGameResult o s outcome dlg).activeHandIndex = 0 ∧
      (Sim.recordGameResult o s outcome dlg).stats.wins =
        s.stats.wins + (if outcome = .win then 1 else 0) ∧
      (Sim.recordGameResult o s outcome dlg).stats.losses =
        s.stats.losses + (if outcome = .loss then 1 else 0) ∧
      (Sim.recordGameResult o s outcome dlg).stats.pushes =
        s.stats.pushes + (if outcome = .push then 1 else 0) ∧
      (Sim.recordGameResult o s outcome dlg).stats.netProfit =
        s.stats.netProfit +
          Sim.calculateProfitDelta (Sim.currentRoundBet s) hos s.roundDoubled := by
  simp only [Sim.recordGameResult]
  rw [if_neg hne, hc]
  obtain ⟨s1, hlog, hseen, hph, hdc, hai, hrb, hrd, hst, hbk, hdk⟩ :=
    logCurrentHands_some o s hne
  rw [hlog]
  dsimp only
  refine ⟨?_, ?_, ?_, ?_, ?_, ?_, ?_, ?_⟩ <;>
    cases outcome <;>
    simp [hseen, hph, hdc, hai, hst, bumpSeenMany_apply]

/-! ### The claims -/

/-- Arithmetic of the shallow-shoe dampening branch: under `raw_units > 1`,
`0 < physical_left < needed`, the engine's truncation step yields exactly
the claimed `max(1, floor(1 + (raw_units − 1) * physical_left / needed))`,
and that value is always strictly below the raw units (so the code's
`reduced < bet_units` guard is automatically satisfied). -/
theorem dampedUnits_eq (raw : Nat) (P N : Int) (h1 : 1 < raw) (h2 : 0 < P) (h3 : P < N) :
    max 1 (pyInt ((1 : ℚ) + ((raw : ℚ) - 1) * ((P : ℚ) / (N : ℚ)))).toNat =
      claimDampedUnits raw P N ∧
    claimDampedUnits raw P N < raw := by
  have hN : (0 : Int) < N := lt_trans h2 h3
  have hNq : (0 : ℚ) < (N : ℚ) := by exact_mod_cast hN
  have hPq : (0 : ℚ) < (P : ℚ) := by exact_mod_cast h2
  have hf1 : (P : ℚ) / (N : ℚ) < 1 := by
    rw [div_lt_one hNq]
    exact_mod_cast h3
  have hf0 : (0 : ℚ) < (P : ℚ) / (N : ℚ) := div_pos hPq hNq
  have hr1 : (1 : ℚ) ≤ (raw : ℚ) - 1 := by
    have h2r : (2 : ℚ) ≤ (raw : ℚ) := by exact_mod_cast h1
    linarith
  have hmul0 : (0 : ℚ) ≤ ((raw : ℚ) - 1) * ((P : ℚ) / (N : ℚ)) :=
    mul_nonneg (by linarith) hf0.le
  have hmul1 : ((raw : ℚ) - 1) * ((P : ℚ) / (N : ℚ)) < ((raw : ℚ) - 1) * 1 :=
    mul_lt_mul_of_pos_left hf1 (by linarith)
  have hadj0 : (0 : ℚ) ≤ (1 : ℚ) + ((raw : ℚ) - 1) * ((P : ℚ) / (N : ℚ)) := by linarith
  have hpy : pyInt ((1 : ℚ) + ((raw : ℚ) - 1) * ((P : ℚ) / (N : ℚ))) =
      ⌊(1 : ℚ) + ((raw : ℚ) - 1) * ((P : ℚ) / (N : ℚ))⌋ := by
    unfold pyInt
    rw [if_pos hadj0]
  have hfl : ⌊(1 : ℚ) + ((raw : ℚ) - 1) * ((P : ℚ) / (N : ℚ))⌋ < (raw : Int) := by
    apply Int.floor_lt.mpr
    push_cast
    linarith
  have hfl1 : (1 : Int) ≤ ⌊(1 : ℚ) + ((raw : ℚ) - 1) * ((P : ℚ) / (N : ℚ))⌋ := by
    apply Int.le_floor.mpr
    push_cast
    linarith
  constructor
  · unfold claimDampedUnits
    rw [hpy]
  · unfold claimDampedUnits
    omega

/-- Claim C8 (amended: the dampening rule as stated holds of the
simulation_gui engine; the gui package instead halves the units whenever
fewer than 20 physical cards remain, see `claimC8_counterexample`):
whenever the oracle's raw units exceed 1 and `0 < physical_left <
needed = (max(active_hand_count,1)+1)*4`, the recommended units are
exactly `max(1, floor(1 + (raw − 1) * physical_left / needed))`, which is
always strictly below the raw units, and the "reduced: low shoe" note is
set; in every other case the raw units are used unchanged with no note. -/
theorem claimC8_amended (o : List Nat → Nat) (s : SimState) :
    (1 < o (Sim.cardsSeenList s) ∧ 0 < Sim.physicalLeft s ∧
        Sim.physicalLeft s < Sim.estimatedNeeded s →
      (Sim.betInfo o s).units =
          claimDampedUnits (o (Sim.cardsSeenList s)) (Sim.physicalLeft s)
            (Sim.estimatedNeeded s) ∧
        claimDampedUnits (o (Sim.cardsSeenList s)) (Sim.physicalLeft s)
            (Sim.estimatedNeeded s) < o (Sim.cardsSeenList s) ∧
        (Sim.betInfo o s).reducedNote = true) ∧
    (¬(1 < o (Sim.cardsSeenList s) ∧ 0 < Sim.physicalLeft s ∧
        Sim.physicalLeft s < Sim.estimatedNeeded s) →
      (Sim.betInfo o s).units = o (Sim.cardsSeenList s) ∧
        (Sim.betInfo o s).reducedNote = false) := by
  constructor
  · rintro ⟨h1, h2, h3⟩
    obtain ⟨heq, hlt⟩ :=
      dampedUnits_eq (o (Sim.cardsSeenList s)) (Sim.physicalLeft s) (Sim.estimatedNeeded s)
        h1 h2 h3
    simp only [Sim.betInfo]
    rw [if_pos (And.intro h1 h2), if_pos h3, heq, if_pos hlt]
    exact ⟨rfl, hlt, rfl⟩
  · intro hnot
    simp only [Sim.betInfo]
    by_cases hA : 1 < o (Sim.cardsSeenList s) ∧ 0 < Sim.physicalLeft s
    · rw [if_pos hA]
      have h3 : ¬Sim.physicalLeft s < Sim.estimatedNeeded s :=
        fun h3 => hnot ⟨hA.1, hA.2, h3⟩
      rw [if_neg h3]
      exact ⟨rfl, rfl⟩
    · rw [if_neg hA]
      exact ⟨rfl, rfl⟩

/-- Claim C8 witness: the shallow single-deck shoe (15 physical cards
left, three active hands so `needed = 16`, raw units 10) is damped to
`max(1, floor(1 + 9 · 15/16)) = 9` with the low-shoe note. -/
theorem claimC8_amended_witness :
    (Sim.betInfo (oracleConst 10) simStateShallow).units = 9 ∧
      (Sim.betInfo (oracleConst 10) simStateShallow).reducedNote = true := by
  obtain ⟨hu, _, hn⟩ := (claimC8_amended (oracleConst 10) simStateShallow).1
    ⟨by with_unfolding_all decide, by with_unfolding_all decide, by with_unfolding_all decide⟩
  exact ⟨hu.trans (by with_unfolding_all decide), hn⟩

/-- Claim C8 counterexample (gui package): on the very same shoe
(15 physical cards left, needed 16, raw units 10) the claimed damped
value is 9, but `calculate_betting_info` halves instead
(`max(1, bet_units // 2)` whenever fewer than 20 physical cards remain)
and recommends 5 units. -/
theorem claimC8_counterexample :
    Sim.physicalLeft simStateShallow = 15 ∧
      Sim.estimatedNeeded simStateShallow = 16 ∧
      claimDampedUnits 10 15 16 = 9 ∧
      (App.betCalc (oracleConst 10) appStateShallow).1 = 5 ∧
      (App.betCalc (oracleConst 10) appStateShallow).1 ≠ claimDampedUnits 10 15 16 := by
  refine ⟨by with_unfolding_all decide, by with_unfolding_all decide, by with_unfolding_all decide, by with_unfolding_all decide, by with_unfolding_all decide⟩

/-- Claim C7 (code bug in the gui package): the simulation_gui engine
follows the spec — at a true count of −2.08 the recommendation is forced
to `min(min_bet, bankroll)` = 100 and flagged as forced-minimum, and at a
true count of exactly −0.5 no flattening happens — while the gui
package's `calculate_betting_info`, under its own comment "Clamp to
table minimum", sets the units to 0 (so the recommended bet is 0, not
the positive table minimum `min(min_bet, bankroll)`), and already does so
at exactly −0.5 (`<=` instead of `<`). -/
theorem claimC7_code_bug :
    Sim.trueCount simStateNeg < negativeCountThreshold ∧
      (Sim.betInfo (oracleConst 4) simStateNeg).actual =
        min (max simStateNeg.minBetVar 0) (max simStateNeg.bankrollVar 0) ∧
      (Sim.betInfo (oracleConst 4) simStateNeg).actual = 100 ∧
      (Sim.betInfo (oracleConst 4) simStateNeg).forcedMin = true ∧
      Sim.trueCount simStateHalf = negativeCountThreshold ∧
      (Sim.betInfo (oracleConst 4) simStateHalf).forcedMin = false ∧
      (Sim.betInfo (oracleConst 4) simStateHalf).units = 4 ∧
      (App.betCalc (oracleConst 4) appStateNeg).2 = 0 ∧
      0 < min appStateNeg.minBet appStateNeg.bankroll ∧
      (App.betCalc (oracleConst 4) appStateHalf).1 = 0 := by
  refine ⟨by with_unfolding_all decide, by with_unfolding_all decide, by with_unfolding_all decide, by with_unfolding_all decide, by with_unfolding_all decide, by with_unfolding_all decide, by with_unfolding_all decide,
    by with_unfolding_all decide, by with_unfolding_all decide, by with_unfolding_all decide⟩

/-- Claim C1 (amended: the conservation invariant and the capacity
rejection hold of the simulation_gui engine; the gui package's
`modify_hand_card` performs no capacity check at all, see
`claimC1_counterexample`): every state reachable from the startup
defaults satisfies `seen[r] + open-hand occurrences of r ≤ capacity(r)`
for every rank, and `_add_card_to_hand` at capacity rejects with the
state unchanged. -/
theorem claimC1_amended (oracle : List Nat → Nat) :
    (∀ s, SimReach oracle s → P1 s) ∧
    (∀ (s : SimState) (t : Targ) (v : Nat) (hi : Option Nat),
      Sim.cap s v ≤ s.seen v + Sim.occ s v →
      Sim.addCardToHand oracle s t v hi = s) :=
  ⟨fun s h => P1_of_SimReach oracle s h,
    fun s t v hi h => addCard_rejected oracle s t v hi h⟩

/-- Claim C1 witness: the invariant holds after adding a 5 to the fresh
table, and with one deck and all four 5s already seen the add is
rejected verbatim. -/
theorem claimC1_amended_witness :
    P1 (Sim.addCardToHand (oracleConst 1) simInitial .player 5 none) ∧
      Sim.addCardToHand (oracleConst 1) simStateFull5 .player 5 none = simStateFull5 := by
  constructor
  · exact (claimC1_amended (oracleConst 1)).1 _
      (SimReach.addCard simInitial .player 5 none SimReach.init)
  · exact (claimC1_amended (oracleConst 1)).2 simStateFull5 .player 5 none (by decide)

/-- Claim C1 counterexample (gui package): with one deck and all four 5s
already marked seen (capacity 4 exactly used up), `modify_hand_card`
appends a fifth 5 without any check, breaking the conservation bound. -/
theorem claimC1_counterexample :
    appStateFull5.seen 5 + (appStateFull5.playerHands.flatten.count 5 +
        appStateFull5.dealerCards.count 5) = appStateFull5.deckNumber * 4 ∧
      (App.modifyHandCard (oracleConst 1) appStateFull5 .player 5 1).playerHands = [[5]] ∧
      appStateFull5.deckNumber * 4 <
        (App.modifyHandCard (oracleConst 1) appStateFull5 .player 5 1).seen 5 +
          ((App.modifyHandCard (oracleConst 1) appStateFull5 .player 5 1).playerHands.flatten.count 5 +
            (App.modifyHandCard (oracleConst 1) appStateFull5 .player 5 1).dealerCards.count 5) := by
  refine ⟨by decide, by with_unfolding_all decide, by with_unfolding_all decide⟩

/-- Claim C2 (amended: lock stability holds of the simulation_gui
engine; the gui package clears the locked bet on EVERY card edit and on
every split, see `claimC2_counterexample`): an existing lock survives
card additions and splits unchanged; a removal keeps it unless no hand
remains in progress, in which case (and only then) it returns to null; a
completed settlement returns it to null; and the lock is captured from
the previously computed recommendation on the first card added to an
all-empty table. -/
theorem claimC2_amended (o : List Nat → Nat) :
    (∀ (s : SimState) (b : ℚ) (t : Targ) (v : Nat) (hi : Option Nat),
      s.roundBet = some b → (Sim.addCardToHand o s t v hi).roundBet = some b) ∧
    (∀ (s : SimState) (b : ℚ), s.roundBet = some b →
      (Sim.addPlayerHand o s).roundBet = some b) ∧
    (∀ (s : SimState) (b : ℚ) (t : Targ) (v : Nat) (hi : Option Nat),
      s.roundBet = some b →
      (Sim.removeCardByValue o s t v hi).roundBet = some b ∨
        ((Sim.removeCardByValue o s t v hi).roundBet = none ∧
          Sim.roundInProgress (Sim.removeCardByValue o s t v hi) = false)) ∧
    (∀ (s : SimState) (outcome : Outcome) (dlg : Option (List Outcome))
        (hos : List Outcome),
      ¬(Sim.allPlayerCards s = [] ∧ s.dealerCards = []) →
      Sim.collectHandOutcomes s outcome dlg = some hos →
      (Sim.recordGameResult o s outcome dlg).roundBet = none) ∧
    (∀ (s : SimState) (t : Targ) (v : Nat) (hi : Option Nat),
      s.roundBet = none → Sim.roundInProgress s = false →
      s.seen v + Sim.occ s v < Sim.cap s v →
      (Sim.addCardToHand o s t v hi).roundBet = some (max s.lastBet 0)) := by
  refine ⟨?_, ?_, ?_, ?_, ?_⟩
  · exact fun s b t v hi hb => addCard_roundBet_locked o s t v hi b hb
  · exact fun s b hb => (addPlayerHand_roundBet o s).trans hb
  · exact fun s b t v hi hb => removeCard_roundBet o s t v hi b hb
  · exact fun s outcome dlg hos hne hc =>
      recordGameResult_roundBet_none o s outcome dlg hos hne hc
  · exact fun s t v hi hb hidle hg => addCard_roundBet_capture o s t v hi hb hidle hg

/-- Claim C2 witness: the lock of 50 survives adding a 9 and splitting
the pair of 8s (Scenario C), and settling the two-hand table unlocks. -/
theorem claimC2_amended_witness :
    (Sim.addCardToHand (oracleConst 2) simStatePair8 .player 9 none).roundBet = some 50 ∧
      (Sim.addPlayerHand (oracleConst 2) simStatePair8).roundBet = some 50 ∧
      (Sim.recordGameResult (oracleConst 2) simStateTwoHands .win
        (some [.win, .win])).roundBet = none := by
  refine ⟨?_, ?_, ?_⟩
  · exact (claimC2_amended (oracleConst 2)).1 simStatePair8 50 .player 9 none rfl
  · exact (claimC2_amended (oracleConst 2)).2.1 simStatePair8 50 rfl
  · exact (claimC2_amended (oracleConst 2)).2.2.2.1 simStateTwoHands .win
      (some [.win, .win]) [.win, .win] (by decide) (by decide)

/-- Claim C2 counterexample (gui package): `modify_hand_card` sets
`round_bet_amount = None` on every edit — adding a 9 to a locked round
drops the lock of 100 — and `add_player_hand` clears it on a split of
the pair of 8s, against Scenario C. -/
theorem claimC2_counterexample :
    appStateLocked.roundBet = some 100 ∧
      (App.modifyHandCard (oracleConst 2) appStateLocked .player 9 1).playerHands =
        [[5, 9]] ∧
      (App.modifyHandCard (oracleConst 2) appStateLocked .player 9 1).roundBet = none ∧
      appStatePair8.roundBet = some 50 ∧
      (App.addPlayerHand appStatePair8).playerHands = [[8], [8]] ∧
      (App.addPlayerHand appStatePair8).roundBet = none := by
  refine ⟨rfl, by with_unfolding_all decide, by with_unfolding_all decide, rfl,
    by with_unfolding_all decide, by with_unfolding_all decide⟩

/-- Claim C3 (amended: settlement conservation holds of the
simulation_gui engine; the gui package settles only the active hand, see
`claimC3_counterexample`): a completed settlement of a non-empty table
grows every rank's seen count by exactly its open-hand occurrences and
resets the table to the single-empty-hand idle configuration. -/
theorem claimC3_amended (o : List Nat → Nat) (s : SimState) (outcome : Outcome)
    (dlg : Option (List Outcome)) (hos : List Outcome)
    (hne : ¬(Sim.allPlayerCards s = [] ∧ s.dealerCards = []))
    (hc : Sim.collectHandOutcomes s outcome dlg = some hos) :
    (∀ v, (Sim.recordGameResult o s outcome dlg).seen v =
        s.seen v + (Sim.allPlayerCards s ++ s.dealerCards).count v) ∧
      (Sim.recordGameResult o s outcome dlg).playerHands = [[]] ∧
      (Sim.recordGameResult o s outcome dlg).dealerCards = [] ∧
      (Sim.recordGameResult o s outcome dlg).activeHandIndex = 0 := by
  obtain ⟨h1, h2, h3, h4, _⟩ := recordGameResult_spec o s outcome dlg hos hne hc
  exact ⟨h1, h2, h3, h4⟩

/-- Claim C3 witness: settling [[10,9],[5,5]] against dealer [7] marks
both 5s seen and empties every hand. -/
theorem claimC3_amended_witness :
    (Sim.recordGameResult (oracleConst 3) simStateTwoHands .win
        (some [.win, .win])).seen 5 = 2 ∧
      (Sim.recordGameResult (oracleConst 3) simStateTwoHands .win
        (some [.win, .win])).playerHands = [[]] ∧
      (Sim.recordGameResult (oracleConst 3) simStateTwoHands .win
        (some [.win, .win])).dealerCards = [] := by
  obtain ⟨h1, h2, h3, _⟩ := claimC3_amended (oracleConst 3) simStateTwoHands .win
    (some [.win, .win]) [.win, .win] (by decide) (by decide)
  exact ⟨(h1 5).trans (by decide), h2, h3⟩

/-- Claim C3 counterexample (gui package): settling the two-hand table
`[[10,9],[5,5]]` through `record_result` consumes ONLY the active hand
[10,9] — the second hand and the dealer hand stay open and none of their
cards is marked seen. -/
theorem claimC3_counterexample :
    (App.recordResult (oracleConst 3) appStateTwoHands .win false false).playerHands =
        [[5, 5]] ∧
      (App.recordResult (oracleConst 3) appStateTwoHands .win false false).dealerCards =
        [7] ∧
      (App.recordResult (oracleConst 3) appStateTwoHands .win false false).seen 5 = 0 ∧
      (App.recordResult (oracleConst 3) appStateTwoHands .win false false).seen 10 = 1 := by
  refine ⟨by with_unfolding_all decide, by with_unfolding_all decide,
    by with_unfolding_all decide, by with_unfolding_all decide⟩

/-- Claim C4 (amended: the counter update of the claim is wrong even in
the simulation_gui engine — the counter matching the PRESSED BUTTON
advances by exactly one, regardless of the per-hand outcome list, see
`claimC4_counterexample`; the profit part of the claim holds as stated):
a completed settlement advances the button's counter by one and moves
the net profit by `locked_bet * (wins − losses over the outcome list)`,
doubled for a doubled single-hand round. -/
theorem claimC4_amended (o : List Nat → Nat) (s : SimState) (outcome : Outcome)
    (dlg : Option (List Outcome)) (hos : List Outcome)
    (hne : ¬(Sim.allPlayerCards s = [] ∧ s.dealerCards = []))
    (hc : Sim.collectHandOutcomes s outcome dlg = some hos) :
    (Sim.recordGameResult o s outcome dlg).stats.wins =
        s.stats.wins + (if outcome = .win then 1 else 0) ∧
      (Sim.recordGameResult o s outcome dlg).stats.losses =
        s.stats.losses + (if outcome = .loss then 1 else 0) ∧
      (Sim.recordGameResult o s outcome dlg).stats.pushes =
        s.stats.pushes + (if outcome = .push then 1 else 0) ∧
      (Sim.recordGameResult o s outcome dlg).stats.netProfit =
        s.stats.netProfit +
          Sim.calculateProfitDelta (Sim.currentRoundBet s) hos s.roundDoubled := by
  obtain ⟨_, _, _, _, h5, h6, h7, h8⟩ := recordGameResult_spec o s outcome dlg hos hne hc
  exact ⟨h5, h6, h7, h8⟩

/-- Claim C4 witness: the two-hand [win, win] settlement with locked bet
100 yields one more win and +200 profit. -/
theorem claimC4_amended_witness :
    (Sim.recordGameResult (oracleConst 4) simStateTwoHands .win
        (some [.win, .win])).stats.wins = 1 ∧
      (Sim.recordGameResult (oracleConst 4) simStateTwoHands .win
        (some [.win, .win])).stats.netProfit = 200 := by
  obtain ⟨h5, _, _, h8⟩ := claimC4_amended (oracleConst 4) simStateTwoHands .win
    (some [.win, .win]) [.win, .win] (by decide) (by decide)
  exact ⟨h5.trans (by decide), h8.trans (by with_unfolding_all decide)⟩

/-- Claim C4 counterexample (simulation_gui engine): settling the
two-hand table with per-hand outcomes [win, win] counts ONE win — not
`wins += count(win) = 2` as the claim requires — even though the profit
does move by 2 bets. -/
theorem claimC4_counterexample :
    Sim.collectHandOutcomes simStateTwoHands .win (some [.win, .win]) =
        some [.win, .win] ∧
      [Outcome.win, Outcome.win].count Outcome.win = 2 ∧
      simStateTwoHands.stats.wins = 0 ∧
      (Sim.recordGameResult (oracleConst 5) simStateTwoHands .win
        (some [.win, .win])).stats.wins = 1 ∧
      (Sim.recordGameResult (oracleConst 5) simStateTwoHands .win
        (some [.win, .win])).stats.wins ≠ simStateTwoHands.stats.wins + 2 := by
  refine ⟨by decide, by decide, by decide, by with_unfolding_all decide,
    by with_unfolding_all decide⟩

/-- The capacity scan of `_validate_import_capacity` in `List.find?`
form. -/
theorem validateImportCapacity_eq (s : SimState) (ph : List (List Nat)) (dc : List Nat) :
    Sim.validateImportCapacity s ph dc =
      (Sim.counterKeys (ph.flatten ++ dc)).find?
        (fun v => Sim.cap s v < s.seen v + (ph.flatten ++ dc).count v) := rfl

/-- Claim C5 (amended: import atomicity holds of the simulation_gui
engine; the gui package commits the parsed hands with no capacity
validation at all, see `claimC5_counterexample`): when the parsed hands
would push some rank over the remaining capacity, the import returns the
state COMPLETELY unchanged, paired with a capacity failure naming an
offending rank. -/
theorem claimC5_amended (o : List Nat → Nat) (s : SimState) (text : List Char)
    (playerHands : List (List Nat)) (dealerCards : List Nat)
    (hne : pyStrip text ≠ [])
    (hp : simParseClipboardHands text = .ok (playerHands, dealerCards))
    (hx : ∃ v, 0 < (playerHands.flatten ++ dealerCards).count v ∧
      Sim.cap s v < s.seen v + (playerHands.flatten ++ dealerCards).count v) :
    ∃ v, Sim.importHands o s text = (s, .capacityExceeded v) ∧
      Sim.cap s v < s.seen v + (playerHands.flatten ++ dealerCards).count v := by
  obtain ⟨v, hv1, hv2⟩ := hx
  have hmem : v ∈ Sim.counterKeys (playerHands.flatten ++ dealerCards) :=
    (mem_counterKeys _ v).mpr (List.count_pos_iff.mp hv1)
  cases hfind : Sim.validateImportCapacity s playerHands dealerCards with
  | none =>
    exfalso
    rw [validateImportCapacity_eq] at hfind
    have hnone := List.find?_eq_none.mp hfind v hmem
    simp only [decide_eq_true_eq] at hnone
    exact hnone hv2
  | some w =>
    refine ⟨w, ?_, ?_⟩
    · simp only [Sim.importHands]
      rw [if_neg hne, hp]
      dsimp only
      rw [hfind]
    · rw [validateImportCapacity_eq] at hfind
      have hw := List.find?_some hfind
      simpa using hw

/-- Claim C5 witness: importing five 5s against a one-deck shoe whose
four 5s are already seen fails atomically, naming rank 5. -/
theorem claimC5_amended_witness :
    ∃ v, Sim.importHands (oracleConst 5) simStateFull5 textFive5s =
        (simStateFull5, .capacityExceeded v) ∧
      Sim.cap simStateFull5 v <
        simStateFull5.seen v + ([[5, 5, 5, 5, 5]].flatten ++ [9]).count v :=
  claimC5_amended (oracleConst 5) simStateFull5 textFive5s [[5, 5, 5, 5, 5]] [9]
    (by decide) (by rfl) ⟨5, by decide, by decide⟩

/-- Claim C5 counterexample (gui package): `import_clipboard` runs no
capacity validation — the same five-5s text against the one-deck shoe
with all four 5s already seen is committed wholesale. -/
theorem claimC5_counterexample :
    parseClipboardHands textFive5s = .ok ([[5, 5, 5, 5, 5]], [9]) ∧
      appStateFull5.deckNumber * 4 <
        appStateFull5.seen 5 + [[5, 5, 5, 5, 5]].flatten.count 5 ∧
      (App.importClipboard (oracleConst 5) appStateFull5 textFive5s).playerHands =
        [[5, 5, 5, 5, 5]] ∧
      (App.importClipboard (oracleConst 5) appStateFull5 textFive5s).dealerCards =
        [9] := by
  refine ⟨by rfl, by decide, by with_unfolding_all decide, by with_unfolding_all decide⟩

/-- Claim C6 (amended: in the simulation_gui engine the new single-card
hand is APPENDED at the END of the hand list, not inserted immediately
after the split index — see `claimC6_counterexample`): splitting an
in-range active hand holding exactly two cards of equal rank moves one
card into a new single-card hand appended after all hands; any other
shape appends a new empty hand, never erring. -/
theorem claimC6_amended (o : List Nat → Nat) (s : SimState)
    (hlt : s.activeHandIndex < s.playerHands.length) :
    (∀ c, s.playerHands.getD s.activeHandIndex [] = [c, c] →
      (Sim.addPlayerHand o s).playerHands =
        s.playerHands.set s.activeHandIndex [c] ++ [[c]]) ∧
    (¬((s.playerHands.getD s.activeHandIndex []).length = 2 ∧
        (s.playerHands.getD s.activeHandIndex []).getD 0 0 =
          (s.playerHands.getD s.activeHandIndex []).getD 1 0) →
      (Sim.addPlayerHand o s).playerHands = s.playerHands ++ [[]]) := by
  have hnil : s.playerHands ≠ [] := by
    intro he
    rw [he] at hlt
    simp at hlt
  have hfix : Sim.fixHands s = s := by
    unfold Sim.fixHands
    rw [if_neg hnil]
  have hres : Sim.resolveHandIndex s (some s.activeHandIndex) = (s, s.activeHandIndex) := by
    simp only [Sim.resolveHandIndex, hfix]
    rw [if_pos hlt]
  have hreb : ∀ t : SimState, t.playerHands ≠ [] →
      (Sim.rebuildTabs t).playerHands = t.playerHands := by
    intro t ht
    unfold Sim.rebuildTabs Sim.fixHands
    rw [if_neg ht]
  constructor
  · intro c hhand
    simp only [Sim.addPlayerHand, hres]
    rw [hhand]
    rw [if_pos (by simp)]
    rw [updateBetting_playerHands, hreb _ (by simp)]
    simp
  · intro hnot
    simp only [Sim.addPlayerHand, hres]
    rw [if_neg hnot]
    rw [updateBetting_playerHands, hreb _ (by simp)]

/-- Claim C6 witness: splitting the pair of 8s in [[8,8],[5]] puts the
new hand [8] at the very end. -/
theorem claimC6_amended_witness :
    (Sim.addPlayerHand (oracleConst 6) simStatePair8).playerHands = [[8], [5], [8]] := by
  have h := (claimC6_amended (oracleConst 6) simStatePair8 (by decide)).1 8 (by decide)
  exact h.trans (by decide)

/-- Claim C6 counterexample: on [[8,8],[5]] with active index 0 the
claimed insertion at index 1 would give [[8],[8],[5]], but the
simulation_gui engine yields [[8],[5],[8]]; and the gui package splits
the UNEQUAL two-card hand [10,9] instead of appending an empty hand. -/
theorem claimC6_counterexample :
    simStatePair8.playerHands = [[8, 8], [5]] ∧
      simStatePair8.activeHandIndex = 0 ∧
      claimSplitHands simStatePair8.playerHands simStatePair8.activeHandIndex =
        [[8], [8], [5]] ∧
      (Sim.addPlayerHand (oracleConst 6) simStatePair8).playerHands = [[8], [5], [8]] ∧
      (Sim.addPlayerHand (oracleConst 6) simStatePair8).playerHands ≠
        claimSplitHands simStatePair8.playerHands simStatePair8.activeHandIndex ∧
      (App.addPlayerHand appStateTwoHands).playerHands = [[10], [9], [5, 5]] ∧
      (App.addPlayerHand appStateTwoHands).playerHands ≠
        appStateTwoHands.playerHands ++ [[]] := by
  refine ⟨rfl, rfl, by decide, by with_unfolding_all decide, by with_unfolding_all decide,
    by with_unfolding_all decide, by with_unfolding_all decide⟩

/-- Claim C9 (corrected as to the no-token case, see
`claimC9_counterexample`): for a text whose lower-casing contains the
"dealer hand" marker at position `di`, with no hand-number label before
the marker and no "your hand" label, and at least one valid card token
before the marker, the parse returns exactly one player hand — the card
tokens before the marker — and the dealer hand built from the text at
and after the marker. -/
theorem claimC9_amended (text : List Char) (di : Nat)
    (hd : findSub (lowerL text) dealerPat = some di)
    (hm : handMarks (text.take di) = [])
    (hy : findSub (lowerL text) yourHandPat = none)
    (hne : extractCards (text.take di) ≠ []) :
    parseClipboardHands text =
      .ok ([extractCards (text.take di)], extractCards (text.drop di)) := by
  simp only [parseClipboardHands]
  rw [hd]
  dsimp only
  rw [hm, hy]
  simp [hne]

/-- Claim C9 witness (Scenario E): the text ":AH::KS:Dealer
Hand::10D::7C:" parses to the single player hand [11, 10] and the dealer
hand [10, 7]. -/
theorem claimC9_amended_witness :
    parseClipboardHands textScenarioE = .ok ([[11, 10]], [10, 7]) := by
  have h := claimC9_amended textScenarioE 8 (by rfl) (by rfl) (by rfl) (by decide)
  exact h.trans (by rfl)

/-- Claim C9 counterexample: a text with a dealer marker but NO card
token before it does not return the empty player hand the claim
describes — the parser raises "Clipboard player hand has no cards." -/
theorem claimC9_counterexample :
    findSub (lowerL textNoPlayer) dealerPat = some 0 ∧
      handMarks textNoPlayer = [] ∧
      findSub (lowerL textNoPlayer) yourHandPat = none ∧
      extractCards (textNoPlayer.drop 0) = [5] ∧
      parseClipboardHands textNoPlayer = .error .noPlayerCards := by
  refine ⟨by rfl, by rfl, by rfl, by decide, by rfl⟩

/-- Claim C10 (confirmed): recording a settlement with the blackjack
flag set adds one win, pays 1.5× the locked round bet into both the
bankroll and the net profit, and the double-down flag is ignored (the
code's effective-double factor is `(round_doubled or doubled) and not
blackjack`, identically false here). -/
theorem claimC10_confirmed (o : List Nat → Nat) (s : AppState) (outcome : Outcome)
    (doubled : Bool) (b : ℚ) (hb : s.roundBet = some b) (hne : s.playerHands ≠ []) :
    (App.recordResult o s outcome doubled true).stats.wins = s.stats.wins + 1 ∧
      (App.recordResult o s outcome doubled true).bankroll = s.bankroll + b * (3 / 2) ∧
      (App.recordResult o s outcome doubled true).stats.netProfit =
        s.stats.netProfit + b * (3 / 2) ∧
      App.recordResult o s outcome doubled true =
        App.recordResult o s outcome false true := by
  refine ⟨?_, ?_, ?_, ?_⟩ <;>
  · simp only [App.recordResult, App.onStateChange]
    rw [if_neg hne, hb]
    simp only [Option.getD_some, Bool.not_true, Bool.and_false, if_true]
    split <;> simp [hb]

set_option maxRecDepth 8192 in
/-- Claim C10 witness: the blackjack settlement of [[11, 10]] with a
locked bet of 100 — even with the double-down flag raised — yields one
win, bankroll 1150 and net profit 150. -/
theorem claimC10_confirmed_witness :
    (App.recordResult (oracleConst 10) appStateBJ .win true true).stats.wins = 1 ∧
      (App.recordResult (oracleConst 10) appStateBJ .win true true).bankroll = 1150 ∧
      (App.recordResult (oracleConst 10) appStateBJ .win true true).stats.netProfit =
        150 := by
  obtain ⟨h1, h2, h3, _⟩ := claimC10_confirmed (oracleConst 10) appStateBJ .win true 100
    rfl (by decide)
  exact ⟨h1.trans (by decide), h2.trans (by with_unfolding_all decide),
    h3.trans (by with_unfolding_all decide)⟩
